import Mathlib

/-!
Shallow embedding of `src/hooks/src/browser/scrapling_executor.py`.

The script translates a JSON-described list of browser actions into calls
against the scrapling browser-automation library.  Pure data is modelled by
a JSON value type `JVal`; Python dicts appearing in the script (action
steps, result records, configs, keyword-argument dicts) are association
lists in source order.  The wrapped library (the Playwright-style `page`
object handed to the `page_action` callback, and the three scrapling
fetchers) is modelled as an oracle: a structure of functions returning
`Except String α`, where `.error e` models a raised exception with message
`e`.  Every call into the library is additionally recorded in a trace of
`OpTag`s so that claims about how many library operations a step performs
can be stated.
-/

namespace ScraplingExecutor

/-- JSON / Python values flowing through the script. -/
inductive JVal where
  | jnull : JVal
  | jbool : Bool → JVal
  | jnum : Int → JVal
  | jstr : String → JVal
  | jarr : List JVal → JVal
  | jobj : List (String × JVal) → JVal

/-- A Python dict with string keys, in literal order (the shape of every
action step, result record and config in the script). -/
abbrev JObj := List (String × JVal)

/-- Model of `d.get(k)`: the value stored under `k`, if any. -/
def pyGet (o : JObj) (k : String) : Option JVal :=
  (o.find? (fun kv => kv.1 == k)).map (fun kv => kv.2)

/-- Model of `d.get(k, default)`. -/
def pyGetD (o : JObj) (k : String) (d : JVal) : JVal :=
  (pyGet o k).getD d

/-- Python truthiness of a JSON value (`if value:`). -/
def truthy : JVal → Bool
  | .jnull => false
  | .jbool b => b
  | .jnum n => n != 0
  | .jstr s => s != ""
  | .jarr xs => !xs.isEmpty
  | .jobj fs => !fs.isEmpty

/-- Truthiness of an optional value; a missing key (`None`) is falsy. -/
def truthyOpt : Option JVal → Bool
  | some v => truthy v
  | none => false

/-- A Python optional made into a value: `None` becomes JSON null. -/
def jOpt : Option JVal → JVal
  | some v => v
  | none => .jnull

/-- Python string comparison `v == s` where `s` is a string literal:
equality holds only when `v` itself is that string. -/
def pyEqStr (v : JVal) (s : String) : Bool :=
  match v with
  | .jstr t => t == s
  | _ => false

/-- The `action` field viewed as a string: the dispatch chain
`action == 'screenshot'` / `elif action == 'click'` / ... can only take a
branch when the value is the matching string, so the chain is equivalent to
a match on this extraction. -/
def actionStr : Option JVal → Option String
  | some (.jstr s) => some s
  | _ => none

/-- Model of Python string slicing `s[:n]` (by characters). -/
def pyTake (n : Nat) (s : String) : String :=
  String.mk (s.data.take n)

/-- Model of Python `s.strip()`: drop leading and trailing whitespace. -/
def pyStrip (s : String) : String :=
  String.mk (((s.data.dropWhile Char.isWhitespace).reverse.dropWhile
    Char.isWhitespace).reverse)

/-- Decimal value of a digit run, if every character is a digit. -/
def digitsVal : List Char → Option Nat
  | [] => none
  | cs => cs.foldlM (fun acc c => if c.isDigit then some (acc * 10 + (c.toNat - 48)) else none) 0

/-- Model of Python `int(s)` on a string: strip whitespace, optional sign,
then a nonempty digit run; anything else raises `ValueError`. -/
def pyIntOfStr (s : String) : Except String Int :=
  let t := s.trim
  if t.startsWith "-" then
    match digitsVal (t.drop 1).data with
    | some n => .ok (-(n : Int))
    | none => .error ("ValueError: invalid literal for int: " ++ s)
  else if t.startsWith "+" then
    match digitsVal (t.drop 1).data with
    | some n => .ok (n : Int)
    | none => .error ("ValueError: invalid literal for int: " ++ s)
  else
    match digitsVal t.data with
    | some n => .ok (n : Int)
    | none => .error ("ValueError: invalid literal for int: " ++ s)

/-- Model of Python `int(v)` on a JSON value. -/
def pyInt : JVal → Except String Int
  | .jnum n => .ok n
  | .jbool b => .ok (if b then 1 else 0)
  | .jstr s => pyIntOfStr s
  | _ => .error "TypeError: int() argument must be a string or a number"

mutual

/-- Model of Python `repr` on a JSON value (used by `str` on containers). -/
def pyRepr : JVal → String
  | .jnull => "None"
  | .jbool b => if b then "True" else "False"
  | .jnum n => toString n
  | .jstr s => "\x27" ++ s ++ "\x27"
  | .jarr xs => "[" ++ String.intercalate ", " (pyReprList xs) ++ "]"
  | .jobj fs => "\x7b" ++ String.intercalate ", " (pyReprPairs fs) ++ "\x7d"

/-- Repr of each element of a list value. -/
def pyReprList : List JVal → List String
  | [] => []
  | v :: vs => pyRepr v :: pyReprList vs

/-- Repr of each key/value pair of a dict value. -/
def pyReprPairs : List (String × JVal) → List String
  | [] => []
  | kv :: fs => ("\x27" ++ kv.1 ++ "\x27: " ++ pyRepr kv.2) :: pyReprPairs fs

end

/-- Model of Python `str(v)`: strings print verbatim, containers by repr. -/
def pyStr : JVal → String
  | .jstr s => s
  | v => pyRepr v

/-- Interpolation of an optional value into an f-string (`f'...: ⟦action⟧'`):
a missing value is `None`. -/
def pyFstr : Option JVal → String
  | none => "None"
  | some v => pyStr v

/-- Model of `pathlib`'s `output_dir / name` followed by `str(...)`. -/
def pathJoin (d f : String) : String :=
  if d == "." then f else d ++ "/" ++ f

/-- An element handle returned by `page.locator(selector).all()`; its one
used method `inner_text()` may raise. -/
structure Elem where
  innerText : Except String String

/-- Oracle for the Playwright-style `page` object the library hands to the
`page_action` callback.  One field per distinct library call appearing in
`page_action`; chained lazy accessors (`page.locator(sel).first.m()`) are
one browser operation and so one field.  `page.url` is a plain attribute
read, not a call, hence a plain field. -/
structure Page where
  url : String
  screenshot : String → Except String Unit
  click : Option JVal → Option JVal → Except String Unit
  fill : Option JVal → Option JVal → Option JVal → Except String Unit
  typeText : Option JVal → Option JVal → Option JVal → Except String Unit
  hover : Option JVal → Option JVal → Except String Unit
  press : Option JVal → Option JVal → Option JVal → Except String Unit
  select_option : Option JVal → Option JVal → Option JVal → Except String Unit
  check : Option JVal → Option JVal → Except String Unit
  uncheck : Option JVal → Option JVal → Except String Unit
  wait_for_timeout : Int → Except String Unit
  wait_for_selector : Option JVal → Option JVal → Except String Unit
  wait_for_url : Option JVal → Option JVal → Except String Unit
  first_inner_text : Option JVal → Except String String
  first_get_attribute : Option JVal → JVal → Except String JVal
  first_input_value : Option JVal → Except String String
  locator_all : Option JVal → Except String (List Elem)
  evaluate : Option JVal → Except String JVal
  go_back : Option JVal → Except String Unit
  go_forward : Option JVal → Except String Unit
  reload : Option JVal → Except String Unit
  scroll_into_view : Option JVal → Except String Unit
  focus : Option JVal → Option JVal → Except String Unit
  blur : Option JVal → Except String Unit
  drag_and_drop : Option JVal → Option JVal → Option JVal → Except String Unit
  set_input_files : Option JVal → Option JVal → Option JVal → Except String Unit
  title : Except String String

/-- Trace tag recorded for each invocation of a library operation while a
step is processed.  `opElemText k` is the `inner_text()` call on the `k`-th
listed element of a `list_elements` step. -/
inductive OpTag where
  | opScreenshot | opClick | opFill | opType | opHover | opPress
  | opSelect | opCheck | opUncheck | opWaitTimeout | opWaitSelector
  | opWaitUrl | opGetText | opGetAttribute | opGetValue | opLocatorAll
  | opEvaluate | opGoBack | opGoForward | opReload | opScroll | opFocus
  | opBlur | opDrag | opUpload | opTitle
  | opElemText (k : Nat)
  deriving DecidableEq, Repr

/-- Every result record appended by `page_action` starts with the same two
entries `'step': i, 'action': action`; `rest` is the branch-specific tail. -/
def mkStepRec (i : Nat) (action : Option JVal) (rest : JObj) : JObj :=
  ("step", .jnum (Int.ofNat i)) :: ("action", jOpt action) :: rest

/-- Shared shape of the simple dispatch branches: run one library call; on
success append an `'status': 'ok'` record with the branch-specific fields,
on failure propagate the exception.  Exactly one trace tag either way. -/
def opResult (i : Nat) (action : Option JVal) (tag : OpTag)
    (res : Except String Unit) (fields : JObj) : Except String JObj × List OpTag :=
  match res with
  | .ok _ => (.ok (mkStepRec i action (("status", .jstr "ok") :: fields)), [tag])
  | .error e => (.error e, [tag])

/-- The local `action = step.get('action')` of line 31. -/
def sAction (step : JObj) : Option JVal := pyGet step "action"

/-- The local `selector = step.get('selector')` of line 32. -/
def sSelector (step : JObj) : Option JVal := pyGet step "selector"

/-- The local `value = step.get('value')` of line 33. -/
def sValue (step : JObj) : Option JVal := pyGet step "value"

/-- The local `filename = step.get('filename')` of line 34. -/
def sFilename (step : JObj) : Option JVal := pyGet step "filename"

/-- The local `attribute = step.get('attribute', 'href')` of line 35. -/
def sAttr (step : JObj) : JVal := pyGetD step "attribute" (.jstr "href")

/-- The local `timeout = step.get('timeout')` of line 36. -/
def sTimeout (step : JObj) : Option JVal := pyGet step "timeout"

/-- The per-branch `opts = {'timeout': timeout} if timeout else {}`. -/
def sOpts (step : JObj) : Option JVal :=
  if truthyOpt (sTimeout step) then sTimeout step else none

/-- Python object equality `action == 'name'` between the step's action
value and a string literal: true only when the action is that string. -/
def isAct (a : Option JVal) (s : String) : Bool :=
  match a with
  | some v => pyEqStr v s
  | none => false

/-- The body of the `try:` block for step `i` of `page_action`
(lines 39-170 of the script): the `if action == 'screenshot': ...
elif action == 'click': ...` dispatch chain, ending in the unknown-action
branch.  The second component is the trace of library operations the
branch invoked. -/
def stepBody (pg : Page) (output_dir : String) (i : Nat) (step : JObj) :
    Except String JObj × List OpTag :=
  if isAct (sAction step) "screenshot" then
    -- `filename or f'screenshot-{i}.png'`; `output_dir / name` raises
    -- `TypeError` when a truthy filename is not a string.
    (match (if truthyOpt (sFilename step) then
              match sFilename step with
              | some (.jstr s) => Except.ok s
              | _ => Except.error "TypeError: unsupported operand type for /"
            else Except.ok ("screenshot-" ++ toString i ++ ".png") :
            Except String String) with
     | .error e => (.error e, [])
     | .ok nm =>
       opResult i (sAction step) .opScreenshot (pg.screenshot (pathJoin output_dir nm))
         [("path", .jstr (pathJoin output_dir nm))])
  else if isAct (sAction step) "click" then
    opResult i (sAction step) .opClick (pg.click (sSelector step) (sOpts step))
      [("selector", jOpt (sSelector step))]
  else if isAct (sAction step) "fill" then
    opResult i (sAction step) .opFill (pg.fill (sSelector step) (sValue step) (sOpts step))
      [("selector", jOpt (sSelector step))]
  else if isAct (sAction step) "type" then
    opResult i (sAction step) .opType (pg.typeText (sSelector step) (sValue step) (sOpts step))
      [("selector", jOpt (sSelector step))]
  else if isAct (sAction step) "hover" then
    opResult i (sAction step) .opHover (pg.hover (sSelector step) (sOpts step))
      [("selector", jOpt (sSelector step))]
  else if isAct (sAction step) "press" then
    opResult i (sAction step) .opPress (pg.press (sSelector step) (sValue step) (sOpts step))
      [("selector", jOpt (sSelector step)), ("key", jOpt (sValue step))]
  else if isAct (sAction step) "select" then
    opResult i (sAction step) .opSelect
      (pg.select_option (sSelector step) (sValue step) (sOpts step))
      [("selector", jOpt (sSelector step)), ("value", jOpt (sValue step))]
  else if isAct (sAction step) "check" then
    opResult i (sAction step) .opCheck (pg.check (sSelector step) (sOpts step))
      [("selector", jOpt (sSelector step))]
  else if isAct (sAction step) "uncheck" then
    opResult i (sAction step) .opUncheck (pg.uncheck (sSelector step) (sOpts step))
      [("selector", jOpt (sSelector step))]
  else if isAct (sAction step) "wait" then
    -- `ms = int(value) if value else 1000`: the conversion may raise
    -- before the library call.
    (match (if truthyOpt (sValue step) then pyInt (jOpt (sValue step)) else .ok 1000 :
            Except String Int) with
     | .error e => (.error e, [])
     | .ok ms =>
       (match pg.wait_for_timeout ms with
        | .ok _ => (.ok (mkStepRec i (sAction step)
                     [("status", .jstr "ok"), ("ms", .jnum ms)]), [.opWaitTimeout])
        | .error e => (.error e, [.opWaitTimeout])))
  else if isAct (sAction step) "wait_selector" then
    opResult i (sAction step) .opWaitSelector (pg.wait_for_selector (sSelector step) (sOpts step))
      [("selector", jOpt (sSelector step))]
  else if isAct (sAction step) "wait_url" then
    opResult i (sAction step) .opWaitUrl (pg.wait_for_url (sValue step) (sOpts step))
      [("url_pattern", jOpt (sValue step))]
  else if isAct (sAction step) "get_text" then
    (match pg.first_inner_text (sSelector step) with
     | .ok text =>
       (.ok (mkStepRec i (sAction step) [("status", .jstr "ok"),
          ("selector", jOpt (sSelector step)), ("text", .jstr (pyTake 1000 text))]),
        [.opGetText])
     | .error e => (.error e, [.opGetText]))
  else if isAct (sAction step) "get_attribute" then
    (match pg.first_get_attribute (sSelector step) (sAttr step) with
     | .ok val =>
       (.ok (mkStepRec i (sAction step) [("status", .jstr "ok"),
          ("selector", jOpt (sSelector step)), ("attribute", sAttr step), ("value", val)]),
        [.opGetAttribute])
     | .error e => (.error e, [.opGetAttribute]))
  else if isAct (sAction step) "get_value" then
    (match pg.first_input_value (sSelector step) with
     | .ok val =>
       (.ok (mkStepRec i (sAction step) [("status", .jstr "ok"),
          ("selector", jOpt (sSelector step)), ("value", .jstr val)]), [.opGetValue])
     | .error e => (.error e, [.opGetValue]))
  else if isAct (sAction step) "list_elements" then
    (match pg.locator_all (sSelector step) with
     | .ok elements =>
       (.ok (mkStepRec i (sAction step) [("status", .jstr "ok"),
          ("selector", jOpt (sSelector step)),
          ("count", .jnum (Int.ofNat elements.length)),
          ("texts", .jarr ((elements.take 50).map (fun el =>
            match el.innerText with
            | .ok t => JVal.jstr (pyStrip (pyTake 200 t))
            | .error _ => JVal.jstr "[no text]")))]),
        .opLocatorAll :: (List.range (elements.take 50).length).map .opElemText)
     | .error e => (.error e, [.opLocatorAll]))
  else if isAct (sAction step) "evaluate" then
    (match pg.evaluate (sValue step) with
     | .ok result =>
       (.ok (mkStepRec i (sAction step) [("status", .jstr "ok"),
          ("result", .jstr (pyTake 1000 (pyStr result)))]), [.opEvaluate])
     | .error e => (.error e, [.opEvaluate]))
  else if isAct (sAction step) "go_back" then
    opResult i (sAction step) .opGoBack (pg.go_back (sOpts step)) []
  else if isAct (sAction step) "go_forward" then
    opResult i (sAction step) .opGoForward (pg.go_forward (sOpts step)) []
  else if isAct (sAction step) "reload" then
    opResult i (sAction step) .opReload (pg.reload (sOpts step)) []
  else if isAct (sAction step) "scroll" then
    opResult i (sAction step) .opScroll (pg.scroll_into_view (sSelector step))
      [("selector", jOpt (sSelector step))]
  else if isAct (sAction step) "focus" then
    opResult i (sAction step) .opFocus (pg.focus (sSelector step) (sOpts step))
      [("selector", jOpt (sSelector step))]
  else if isAct (sAction step) "blur" then
    opResult i (sAction step) .opBlur (pg.blur (sSelector step))
      [("selector", jOpt (sSelector step))]
  else if isAct (sAction step) "drag" then
    opResult i (sAction step) .opDrag (pg.drag_and_drop (sSelector step) (sValue step) (sOpts step))
      [("source", jOpt (sSelector step)), ("target", jOpt (sValue step))]
  else if isAct (sAction step) "upload_file" then
    opResult i (sAction step) .opUpload
      (pg.set_input_files (sSelector step) (sValue step) (sOpts step))
      [("selector", jOpt (sSelector step)), ("file", jOpt (sValue step))]
  else if isAct (sAction step) "get_url" then
    (.ok (mkStepRec i (sAction step) [("status", .jstr "ok"), ("url", .jstr pg.url)]), [])
  else if isAct (sAction step) "get_title" then
    (match pg.title with
     | .ok t => (.ok (mkStepRec i (sAction step)
                   [("status", .jstr "ok"), ("title", .jstr t)]), [.opTitle])
     | .error e => (.error e, [.opTitle]))
  else
    (.ok (mkStepRec i (sAction step) [("status", .jstr "error"),
       ("error", .jstr ("Unknown action: " ++ pyFstr (sAction step)))]), [])

/-- One loop iteration of `page_action` for step `i`: the `try:` body plus
the `except Exception` clause that turns a raised exception into an error
record and continues. -/
def runStep (pg : Page) (output_dir : String) (i : Nat) (step : JObj) :
    JObj × List OpTag :=
  match stepBody pg output_dir i step with
  | (.ok r, tr) => (r, tr)
  | (.error e, tr) =>
    (mkStepRec i (sAction step) [("status", .jstr "error"), ("error", .jstr e)], tr)

/-- The `for i, step in enumerate(actions)` loop of `page_action`, started
at index `base`: the appended result records in order, and the full trace
of library operations tagged with the step index that made them. -/
def runStepsFrom (pg : Page) (output_dir : String) :
    Nat → List JObj → List JObj × List (Nat × OpTag)
  | _, [] => ([], [])
  | i, step :: rest =>
    let (r, tr) := runStep pg output_dir i step
    let (rs, trs) := runStepsFrom pg output_dir (i + 1) rest
    (r :: rs, tr.map (fun t => (i, t)) ++ trs)

/-- One invocation of the `page_action` callback on a page: the result
records it appends, in order. -/
def pageActionResults (pg : Page) (output_dir : String) (steps : List JObj) : List JObj :=
  (runStepsFrom pg output_dir 0 steps).1

/-- The trace of library operations one `page_action` invocation makes. -/
def pageActionTrace (pg : Page) (output_dir : String) (steps : List JObj) :
    List (Nat × OpTag) :=
  (runStepsFrom pg output_dir 0 steps).2

/-- The 27 action names the dispatch chain of `page_action` tests for. -/
def recognizedActions : List String :=
  ["screenshot", "click", "fill", "type", "hover", "press", "select", "check",
   "uncheck", "wait", "wait_selector", "wait_url", "get_text", "get_attribute",
   "get_value", "list_elements", "evaluate", "go_back", "go_forward", "reload",
   "scroll", "focus", "blur", "drag", "upload_file", "get_url", "get_title"]

/-- A step's action value is recognized when it is one of the tested
strings. -/
def isRecognized (a : Option JVal) : Bool :=
  match actionStr a with
  | some s => recognizedActions.contains s
  | none => false

/-- A value stored in the `fetch_kwargs` dict: either a config value or the
`page_action` callback. -/
inductive KwVal where
  | jval : JVal → KwVal
  | cb : KwVal

/-- The response object a fetcher returns.  `urlAttr` is `response.url`
when `hasattr(response, 'url')` holds; `status` is `response.status`. -/
structure Response where
  urlAttr : Option String
  status : JVal

/-- Oracle for the scrapling library's three fetch entry points.  The first
component of a fetch result is the list of pages the fetcher invokes the
`page_action` callback on (in order) before producing its outcome;
`Fetcher.get` is never handed the callback, so it returns no pages. -/
structure Scrapling where
  stealthyFetch : JVal → List (String × KwVal) → List Page × Except String Response
  dynamicFetch : JVal → List (String × KwVal) → List Page × Except String Response
  fetcherGet : JVal → List (String × KwVal) → Except String Response

/-- The `fetch_kwargs` dict built on lines 197-207: the four literal
entries, then `real_chrome` and `user_data_dir` appended under their
truthiness guards. -/
def baseKwargs (config : JObj) : List (String × KwVal) :=
  ([("headless", KwVal.jval (pyGetD config "headless" (.jbool true))),
    ("page_action", KwVal.cb),
    ("timeout", KwVal.jval (pyGetD config "timeout" (.jnum 45000))),
    ("network_idle", KwVal.jval (pyGetD config "networkIdle" (.jbool true)))] ++
   (if truthy (pyGetD config "realChrome" (.jbool false)) then
      [("real_chrome", KwVal.jval (.jbool true))] else []) ++
   (if truthyOpt (pyGet config "userDataDir") then
      [("user_data_dir", KwVal.jval (jOpt (pyGet config "userDataDir")))] else []))

/-- The kwargs passed to `StealthyFetcher.fetch`: `solve_cloudflare` is
added when the config flag is truthy (lines 211-212). -/
def stealthyKwargs (config : JObj) : List (String × KwVal) :=
  if truthy (pyGetD config "solveCloudflare" (.jbool false)) then
    baseKwargs config ++ [("solve_cloudflare", KwVal.jval (.jbool true))]
  else baseKwargs config

/-- Model of Python `v // 1000` on a config value (floor division; a
non-numeric value raises `TypeError`). -/
def pyFloorDiv1000 : JVal → Except String JVal
  | .jnum n => .ok (.jnum (Int.fdiv n 1000))
  | .jbool b => .ok (.jnum (Int.fdiv (if b then 1 else 0) 1000))
  | _ => .error "TypeError: unsupported operand types for //"

/-- The kwargs passed to `Fetcher.get` (lines 219-221): `page_action` and
`network_idle` deleted, then `timeout` overwritten with `timeout // 1000`. -/
def getKwargs (config : JObj) : Except String (List (String × KwVal)) :=
  match pyFloorDiv1000 (pyGetD config "timeout" (.jnum 45000)) with
  | .error e => .error e
  | .ok t =>
    .ok ((((baseKwargs config).filter (fun kv => kv.1 != "page_action")).filter
            (fun kv => kv.1 != "network_idle")).map
          (fun kv => if kv.1 == "timeout" then (kv.1, KwVal.jval t) else kv))

/-- The `nonlocal results` list after the fetcher has invoked the
`page_action` callback once per visited page: each invocation appends one
record per action step. -/
def passResults (pages : List Page) (output_dir : String) (steps : List JObj) : List JObj :=
  (pages.map (fun pg => pageActionResults pg output_dir steps)).flatten

/-- The result dict `execute` returns (lines 224-230). -/
def resultObj (url method : JVal) (resp : Response) (acts : List JObj) : JObj :=
  [("url", url),
   ("finalUrl", match resp.urlAttr with | some u => .jstr u | none => url),
   ("status", resp.status),
   ("method", method),
   ("actions", .jarr (acts.map JVal.jobj))]

/-- The action list viewed as a list of step dicts.  The embedding types
steps as JSON objects — the data model of the script (`step.get(...)` on
every step); a non-object step would raise inside the callback and is
rejected up front here. -/
def asSteps : JVal → Option (List JObj)
  | .jarr xs => xs.mapM (fun v => match v with | .jobj o => some o | _ => none)
  | _ => none

/-- Model of `execute(config)` (lines 180-230).  Differences of rendering,
not of behaviour: the `Path(outputDir)` string coercion and the typing of
the action list are hoisted before the fetch (in the source they fault
inside `Path()` / inside the callback); `output_dir.mkdir(...)` is a pure
filesystem effect with no modelled observable.  A non-dict config faults at
its first subscript, as `config['url']` does in the source. -/
def execute (configV : JVal) (lib : Scrapling) : Except String JObj :=
  match configV with
  | .jobj config =>
    match pyGet config "url" with
    | none => .error "KeyError: url"
    | some url =>
      match pyGetD config "outputDir" (.jstr ".") with
      | .jstr output_dir =>
        (match asSteps (pyGetD config "actions" (.jarr [])) with
         | none => .error "TypeError: actions is not a list of objects"
         | some steps =>
           if pyEqStr (pyGetD config "method" (.jstr "stealthy-fetch")) "stealthy-fetch" then
             match lib.stealthyFetch url (stealthyKwargs config) with
             | (_, .error e) => .error e
             | (pages, .ok resp) =>
               .ok (resultObj url (pyGetD config "method" (.jstr "stealthy-fetch")) resp
                 (passResults pages output_dir steps))
           else if pyEqStr (pyGetD config "method" (.jstr "stealthy-fetch")) "fetch" then
             match lib.dynamicFetch url (baseKwargs config) with
             | (_, .error e) => .error e
             | (pages, .ok resp) =>
               .ok (resultObj url (pyGetD config "method" (.jstr "stealthy-fetch")) resp
                 (passResults pages output_dir steps))
           else
             match getKwargs config with
             | .error e => .error e
             | .ok kw =>
               match lib.fetcherGet url kw with
               | .error e => .error e
               | .ok resp =>
                 .ok (resultObj url (pyGetD config "method" (.jstr "stealthy-fetch")) resp []))
      | _ => .error "TypeError: outputDir is not a string"
  | _ => .error "TypeError: config is not a dict"

/-- The argparse namespace of `main` with argparse's defaults. -/
structure Args where
  url : Option String := none
  actions : Option String := none
  method : String := "stealthy-fetch"
  no_headless : Bool := false
  timeout : Int := 45000
  solve_cloudflare : Bool := false
  real_chrome : Bool := false
  network_idle : Bool := true
  output_dir : String := "."
  user_data_dir : Option String := none
  stdin : Bool := false
  config : Option String := none

/-- The process environment `main` runs in: parsed stdin (`json.load` of
`sys.stdin`), config-file reading (`open` plus `json.load`, either of which
may raise), the `json.loads` parser for `--actions`, and the scrapling
library. -/
structure Env where
  stdinJson : Except String JVal
  fileJson : String → Except String JVal
  parseJson : String → Except String JVal
  lib : Scrapling

/-- Observable outcome of one run of `main`: the JSON value printed to
stdout (if any), the JSON value printed to stderr (if any), the exit
status, whether argparse help was printed, and the message of an uncaught
exception (one raised outside the `try:` of lines 273-278, which Python
reports as a traceback with exit status 1). -/
structure MainResult where
  stdoutJson : Option JVal
  stderrJson : Option JVal
  exitCode : Nat
  printedHelp : Bool
  uncaughtMsg : Option String

/-- Truthiness of an optional CLI string (`if args.config:`): absent or
empty is falsy. -/
def optStrTruthy : Option String → Bool
  | some s => s != ""
  | none => false

/-- The config dict built from CLI flags (lines 257-268). -/
def flagsConfig (args : Args) (acts : JVal) : JObj :=
  [("url", .jstr (args.url.getD "")),
   ("actions", acts),
   ("method", .jstr args.method),
   ("headless", .jbool (!args.no_headless)),
   ("timeout", .jnum args.timeout),
   ("solveCloudflare", .jbool args.solve_cloudflare),
   ("realChrome", .jbool args.real_chrome),
   ("networkIdle", .jbool args.network_idle),
   ("outputDir", .jstr args.output_dir),
   ("userDataDir", match args.user_data_dir with | some s => .jstr s | none => .jnull)]

/-- The `try: ... except Exception` of lines 273-278: print the result of
`execute` as JSON on stdout, or an `error` object on stderr and exit 1. -/
def runAndPrint (env : Env) (cfg : JVal) : MainResult :=
  match execute cfg env.lib with
  | .ok r =>
    { stdoutJson := some (.jobj r), stderrJson := none, exitCode := 0,
      printedHelp := false, uncaughtMsg := none }
  | .error e =>
    { stdoutJson := none, stderrJson := some (.jobj [("error", .jstr e)]),
      exitCode := 1, printedHelp := false, uncaughtMsg := none }

/-- An exception raised outside the `try:` block (config reading/parsing). -/
def uncaughtResult (e : String) : MainResult :=
  { stdoutJson := none, stderrJson := none, exitCode := 1,
    printedHelp := false, uncaughtMsg := some e }

/-- The `parser.print_help(); sys.exit(1)` branch. -/
def helpResult : MainResult :=
  { stdoutJson := none, stderrJson := none, exitCode := 1,
    printedHelp := true, uncaughtMsg := none }

/-- Model of `main()` after argument parsing (lines 251-278): pick the
config source with the stdin / config-file / url precedence, then run
`execute` and print. -/
def mainRun (env : Env) (args : Args) : MainResult :=
  if args.stdin then
    match env.stdinJson with
    | .error e => uncaughtResult e
    | .ok cfg => runAndPrint env cfg
  else if optStrTruthy args.config then
    match env.fileJson (args.config.getD "") with
    | .error e => uncaughtResult e
    | .ok cfg => runAndPrint env cfg
  else if optStrTruthy args.url then
    match (if optStrTruthy args.actions then env.parseJson (args.actions.getD "")
           else .ok (.jarr [])) with
    | .error e => uncaughtResult e
    | .ok acts => runAndPrint env (.jobj (flagsConfig args acts))
  else helpResult

/-! Structural lemmas about the step interpreter. -/

set_option maxHeartbeats 2000000 in
/-- Every successful result of the `try:` body is a record starting with
the step index and the step's action value. -/
lemma stepBody_shape (pg : Page) (d : String) (i : Nat) (st : JObj) :
    (∃ rest, (stepBody pg d i st).1 = .ok (mkStepRec i (sAction st) rest)) ∨
      (∃ e, (stepBody pg d i st).1 = .error e) := by
  unfold stepBody
  cases hc0 : isAct (sAction st) "screenshot" with
  | true =>
    simp only [hc0, eq_self_iff_true, Bool.false_eq_true, if_true, if_false]
    first
    | exact Or.inl ⟨_, rfl⟩
    | exact Or.inr ⟨_, rfl⟩
    | ((try unfold opResult) <;> (repeat' split) <;>
        first | exact Or.inl ⟨_, rfl⟩ | exact Or.inr ⟨_, rfl⟩)
  | false =>
    simp only [hc0, eq_self_iff_true, Bool.false_eq_true, if_true, if_false]
    cases hc1 : isAct (sAction st) "click" with
    | true =>
      simp only [hc1, eq_self_iff_true, Bool.false_eq_true, if_true, if_false]
      first
      | exact Or.inl ⟨_, rfl⟩
      | exact Or.inr ⟨_, rfl⟩
      | ((try unfold opResult) <;> (repeat' split) <;>
          first | exact Or.inl ⟨_, rfl⟩ | exact Or.inr ⟨_, rfl⟩)
    | false =>
      simp only [hc1, eq_self_iff_true, Bool.false_eq_true, if_true, if_false]
      cases hc2 : isAct (sAction st) "fill" with
      | true =>
        simp only [hc2, eq_self_iff_true, Bool.false_eq_true, if_true, if_false]
        first
        | exact Or.inl ⟨_, rfl⟩
        | exact Or.inr ⟨_, rfl⟩
        | ((try unfold opResult) <;> (repeat' split) <;>
            first | exact Or.inl ⟨_, rfl⟩ | exact Or.inr ⟨_, rfl⟩)
      | false =>
        simp only [hc2, eq_self_iff_true, Bool.false_eq_true, if_true, if_false]
        cases hc3 : isAct (sAction st) "type" with
        | true =>
          simp only [hc3, eq_self_iff_true, Bool.false_eq_true, if_true, if_false]
          first
          | exact Or.inl ⟨_, rfl⟩
          | exact Or.inr ⟨_, rfl⟩
          | ((try unfold opResult) <;> (repeat' split) <;>
              first | exact Or.inl ⟨_, rfl⟩ | exact Or.inr ⟨_, rfl⟩)
        | false =>
          simp only [hc3, eq_self_iff_true, Bool.false_eq_true, if_true, if_false]
          cases hc4 : isAct (sAction st) "hover" with
          | true =>
            simp only [hc4, eq_self_iff_true, Bool.false_eq_true, if_true, if_false]
            first
            | exact Or.inl ⟨_, rfl⟩
            | exact Or.inr ⟨_, rfl⟩
            | ((try unfold opResult) <;> (repeat' split) <;>
                first | exact Or.inl ⟨_, rfl⟩ | exact Or.inr ⟨_, rfl⟩)
          | false =>
            simp only [hc4, eq_self_iff_true, Bool.false_eq_true, if_true, if_false]
            cases hc5 : isAct (sAction st) "press" with
            | true =>
              simp only [hc5, eq_self_iff_true, Bool.false_eq_true, if_true, if_false]
              first
              | exact Or.inl ⟨_, rfl⟩
              | exact Or.inr ⟨_, rfl⟩
              | ((try unfold opResult) <;> (repeat' split) <;>
                  first | exact Or.inl ⟨_, rfl⟩ | exact Or.inr ⟨_, rfl⟩)
            | false =>
              simp only [hc5, eq_self_iff_true, Bool.false_eq_true, if_true, if_false]
              cases hc6 : isAct (sAction st) "select" with
              | true =>
                simp only [hc6, eq_self_iff_true, Bool.false_eq_true, if_true, if_false]
                first
                | exact Or.inl ⟨_, rfl⟩
                | exact Or.inr ⟨_, rfl⟩
                | ((try unfold opResult) <;> (repeat' split) <;>
                    first | exact Or.inl ⟨_, rfl⟩ | exact Or.inr ⟨_, rfl⟩)
              | false =>
                simp only [hc6, eq_self_iff_true, Bool.false_eq_true, if_true, if_false]
                cases hc7 : isAct (sAction st) "check" with
                | true =>
                  simp only [hc7, eq_self_iff_true, Bool.false_eq_true, if_true, if_false]
                  first
                  | exact Or.inl ⟨_, rfl⟩
                  | exact Or.inr ⟨_, rfl⟩
                  | ((try unfold opResult) <;> (repeat' split) <;>
                      first | exact Or.inl ⟨_, rfl⟩ | exact Or.inr ⟨_, rfl⟩)
                | false =>
                  simp only [hc7, eq_self_iff_true, Bool.false_eq_true, if_true, if_false]
                  cases hc8 : isAct (sAction st) "uncheck" with
                  | true =>
                    simp only [hc8, eq_self_iff_true, Bool.false_eq_true, if_true, if_false]
                    first
                    | exact Or.inl ⟨_, rfl⟩
                    | exact Or.inr ⟨_, rfl⟩
                    | ((try unfold opResult) <;> (repeat' split) <;>
                        first | exact Or.inl ⟨_, rfl⟩ | exact Or.inr ⟨_, rfl⟩)
                  | false =>
                    simp only [hc8, eq_self_iff_true, Bool.false_eq_true, if_true, if_false]
                    cases hc9 : isAct (sAction st) "wait" with
                    | true =>
                      simp only [hc9, eq_self_iff_true, Bool.false_eq_true, if_true, if_false]
                      first
                      | exact Or.inl ⟨_, rfl⟩
                      | exact Or.inr ⟨_, rfl⟩
                      | ((try unfold opResult) <;> (repeat' split) <;>
                          first | exact Or.inl ⟨_, rfl⟩ | exact Or.inr ⟨_, rfl⟩)
                    | false =>
                      simp only [hc9, eq_self_iff_true, Bool.false_eq_true, if_true, if_false]
                      cases hc10 : isAct (sAction st) "wait_selector" with
                      | true =>
                        simp only [hc10, eq_self_iff_true, Bool.false_eq_true, if_true, if_false]
                        first
                        | exact Or.inl ⟨_, rfl⟩
                        | exact Or.inr ⟨_, rfl⟩
                        | ((try unfold opResult) <;> (repeat' split) <;>
                            first | exact Or.inl ⟨_, rfl⟩ | exact Or.inr ⟨_, rfl⟩)
                      | false =>
                        simp only [hc10, eq_self_iff_true, Bool.false_eq_true, if_true, if_false]
                        cases hc11 : isAct (sAction st) "wait_url" with
                        | true =>
                          simp only [hc11, eq_self_iff_true, Bool.false_eq_true, if_true, if_false]
                          first
                          | exact Or.inl ⟨_, rfl⟩
                          | exact Or.inr ⟨_, rfl⟩
                          | ((try unfold opResult) <;> (repeat' split) <;>
                              first | exact Or.inl ⟨_, rfl⟩ | exact Or.inr ⟨_, rfl⟩)
                        | false =>
                          simp only [hc11, eq_self_iff_true, Bool.false_eq_true, if_true, if_false]
                          cases hc12 : isAct (sAction st) "get_text" with
                          | true =>
                            simp only [hc12, eq_self_iff_true, Bool.false_eq_true, if_true, if_false]
                            first
                            | exact Or.inl ⟨_, rfl⟩
                            | exact Or.inr ⟨_, rfl⟩
                            | ((try unfold opResult) <;> (repeat' split) <;>
                                first | exact Or.inl ⟨_, rfl⟩ | exact Or.inr ⟨_, rfl⟩)
                          | false =>
                            simp only [hc12, eq_self_iff_true, Bool.false_eq_true, if_true, if_false]
                            cases hc13 : isAct (sAction st) "get_attribute" with
                            | true =>
                              simp only [hc13, eq_self_iff_true, Bool.false_eq_true, if_true, if_false]
                              first
                              | exact Or.inl ⟨_, rfl⟩
                              | exact Or.inr ⟨_, rfl⟩
                              | ((try unfold opResult) <;> (repeat' split) <;>
                                  first | exact Or.inl ⟨_, rfl⟩ | exact Or.inr ⟨_, rfl⟩)
                            | false =>
                              simp only [hc13, eq_self_iff_true, Bool.false_eq_true, if_true, if_false]
                              cases hc14 : isAct (sAction st) "get_value" with
                              | true =>
                                simp only [hc14, eq_self_iff_true, Bool.false_eq_true, if_true, if_false]
                                first
                                | exact Or.inl ⟨_, rfl⟩
                                | exact Or.inr ⟨_, rfl⟩
                                | ((try unfold opResult) <;> (repeat' split) <;>
                                    first | exact Or.inl ⟨_, rfl⟩ | exact Or.inr ⟨_, rfl⟩)
                              | false =>
                                simp only [hc14, eq_self_iff_true, Bool.false_eq_true, if_true, if_false]
                                cases hc15 : isAct (sAction st) "list_elements" with
                                | true =>
                                  simp only [hc15, eq_self_iff_true, Bool.false_eq_true, if_true, if_false]
                                  first
                                  | exact Or.inl ⟨_, rfl⟩
                                  | exact Or.inr ⟨_, rfl⟩
                                  | ((try unfold opResult) <;> (repeat' split) <;>
                                      first | exact Or.inl ⟨_, rfl⟩ | exact Or.inr ⟨_, rfl⟩)
                                | false =>
                                  simp only [hc15, eq_self_iff_true, Bool.false_eq_true, if_true, if_false]
                                  cases hc16 : isAct (sAction st) "evaluate" with
                                  | true =>
                                    simp only [hc16, eq_self_iff_true, Bool.false_eq_true, if_true, if_false]
                                    first
                                    | exact Or.inl ⟨_, rfl⟩
                                    | exact Or.inr ⟨_, rfl⟩
                                    | ((try unfold opResult) <;> (repeat' split) <;>
                                        first | exact Or.inl ⟨_, rfl⟩ | exact Or.inr ⟨_, rfl⟩)
                                  | false =>
                                    simp only [hc16, eq_self_iff_true, Bool.false_eq_true, if_true, if_false]
                                    cases hc17 : isAct (sAction st) "go_back" with
                                    | true =>
                                      simp only [hc17, eq_self_iff_true, Bool.false_eq_true, if_true, if_false]
                                      first
                                      | exact Or.inl ⟨_, rfl⟩
                                      | exact Or.inr ⟨_, rfl⟩
                                      | ((try unfold opResult) <;> (repeat' split) <;>
                                          first | exact Or.inl ⟨_, rfl⟩ | exact Or.inr ⟨_, rfl⟩)
                                    | false =>
                                      simp only [hc17, eq_self_iff_true, Bool.false_eq_true, if_true, if_false]
                                      cases hc18 : isAct (sAction st) "go_forward" with
                                      | true =>
                                        simp only [hc18, eq_self_iff_true, Bool.false_eq_true, if_true, if_false]
                                        first
                                        | exact Or.inl ⟨_, rfl⟩
                                        | exact Or.inr ⟨_, rfl⟩
                                        | ((try unfold opResult) <;> (repeat' split) <;>
                                            first | exact Or.inl ⟨_, rfl⟩ | exact Or.inr ⟨_, rfl⟩)
                                      | false =>
                                        simp only [hc18, eq_self_iff_true, Bool.false_eq_true, if_true, if_false]
                                        cases hc19 : isAct (sAction st) "reload" with
                                        | true =>
                                          simp only [hc19, eq_self_iff_true, Bool.false_eq_true, if_true, if_false]
                                          first
                                          | exact Or.inl ⟨_, rfl⟩
                                          | exact Or.inr ⟨_, rfl⟩
                                          | ((try unfold opResult) <;> (repeat' split) <;>
                                              first | exact Or.inl ⟨_, rfl⟩ | exact Or.inr ⟨_, rfl⟩)
                                        | false =>
                                          simp only [hc19, eq_self_iff_true, Bool.false_eq_true, if_true, if_false]
                                          cases hc20 : isAct (sAction st) "scroll" with
                                          | true =>
                                            simp only [hc20, eq_self_iff_true, Bool.false_eq_true, if_true, if_false]
                                            first
                                            | exact Or.inl ⟨_, rfl⟩
                                            | exact Or.inr ⟨_, rfl⟩
                                            | ((try unfold opResult) <;> (repeat' split) <;>
                                                first | exact Or.inl ⟨_, rfl⟩ | exact Or.inr ⟨_, rfl⟩)
                                          | false =>
                                            simp only [hc20, eq_self_iff_true, Bool.false_eq_true, if_true, if_false]
                                            cases hc21 : isAct (sAction st) "focus" with
                                            | true =>
                                              simp only [hc21, eq_self_iff_true, Bool.false_eq_true, if_true, if_false]
                                              first
                                              | exact Or.inl ⟨_, rfl⟩
                                              | exact Or.inr ⟨_, rfl⟩
                                              | ((try unfold opResult) <;> (repeat' split) <;>
                                                  first | exact Or.inl ⟨_, rfl⟩ | exact Or.inr ⟨_, rfl⟩)
                                            | false =>
                                              simp only [hc21, eq_self_iff_true, Bool.false_eq_true, if_true, if_false]
                                              cases hc22 : isAct (sAction st) "blur" with
                                              | true =>
                                                simp only [hc22, eq_self_iff_true, Bool.false_eq_true, if_true, if_false]
                                                first
                                                | exact Or.inl ⟨_, rfl⟩
                                                | exact Or.inr ⟨_, rfl⟩
                                                | ((try unfold opResult) <;> (repeat' split) <;>
                                                    first | exact Or.inl ⟨_, rfl⟩ | exact Or.inr ⟨_, rfl⟩)
                                              | false =>
                                                simp only [hc22, eq_self_iff_true, Bool.false_eq_true, if_true, if_false]
                                                cases hc23 : isAct (sAction st) "drag" with
                                                | true =>
                                                  simp only [hc23, eq_self_iff_true, Bool.false_eq_true, if_true, if_false]
                                                  first
                                                  | exact Or.inl ⟨_, rfl⟩
                                                  | exact Or.inr ⟨_, rfl⟩
                                                  | ((try unfold opResult) <;> (repeat' split) <;>
                                                      first | exact Or.inl ⟨_, rfl⟩ | exact Or.inr ⟨_, rfl⟩)
                                                | false =>
                                                  simp only [hc23, eq_self_iff_true, Bool.false_eq_true, if_true, if_false]
                                                  cases hc24 : isAct (sAction st) "upload_file" with
                                                  | true =>
                                                    simp only [hc24, eq_self_iff_true, Bool.false_eq_true, if_true, if_false]
                                                    first
                                                    | exact Or.inl ⟨_, rfl⟩
                                                    | exact Or.inr ⟨_, rfl⟩
                                                    | ((try unfold opResult) <;> (repeat' split) <;>
                                                        first | exact Or.inl ⟨_, rfl⟩ | exact Or.inr ⟨_, rfl⟩)
                                                  | false =>
                                                    simp only [hc24, eq_self_iff_true, Bool.false_eq_true, if_true, if_false]
                                                    cases hc25 : isAct (sAction st) "get_url" with
                                                    | true =>
                                                      simp only [hc25, eq_self_iff_true, Bool.false_eq_true, if_true, if_false]
                                                      first
                                                      | exact Or.inl ⟨_, rfl⟩
                                                      | exact Or.inr ⟨_, rfl⟩
                                                      | ((try unfold opResult) <;> (repeat' split) <;>
                                                          first | exact Or.inl ⟨_, rfl⟩ | exact Or.inr ⟨_, rfl⟩)
                                                    | false =>
                                                      simp only [hc25, eq_self_iff_true, Bool.false_eq_true, if_true, if_false]
                                                      cases hc26 : isAct (sAction st) "get_title" with
                                                      | true =>
                                                        simp only [hc26, eq_self_iff_true, Bool.false_eq_true, if_true, if_false]
                                                        first
                                                        | exact Or.inl ⟨_, rfl⟩
                                                        | exact Or.inr ⟨_, rfl⟩
                                                        | ((try unfold opResult) <;> (repeat' split) <;>
                                                            first | exact Or.inl ⟨_, rfl⟩ | exact Or.inr ⟨_, rfl⟩)
                                                      | false =>
                                                        simp only [hc26, eq_self_iff_true, Bool.false_eq_true, if_true, if_false]
                                                        first
                                                        | exact Or.inl ⟨_, rfl⟩
                                                        | exact Or.inr ⟨_, rfl⟩
                                                        | ((try unfold opResult) <;> (repeat' split) <;>
                                                            first | exact Or.inl ⟨_, rfl⟩ | exact Or.inr ⟨_, rfl⟩)

set_option maxHeartbeats 2000000 in
/-- The trace of library operations one step performs is empty, one
page-level operation, or (for `list_elements`) one enumeration followed by
one `inner_text` per listed element, at most 50. -/
lemma stepBody_trace_shape (pg : Page) (d : String) (i : Nat) (st : JObj) :
    (stepBody pg d i st).2 = [] ∨
      (∃ t, (stepBody pg d i st).2 = [t] ∧ ∀ k, t ≠ .opElemText k) ∨
      (∃ k, k ≤ 50 ∧ (stepBody pg d i st).2 =
        .opLocatorAll :: (List.range k).map .opElemText) := by
  unfold stepBody
  cases hc0 : isAct (sAction st) "screenshot" with
  | true =>
    simp only [hc0, eq_self_iff_true, Bool.false_eq_true, if_true, if_false]
    first
    | exact Or.inl rfl
    | exact Or.inl trivial
    | exact Or.inr (Or.inl ⟨_, rfl, fun k hk => OpTag.noConfusion hk⟩)
    | exact Or.inr (Or.inr ⟨_, by rw [List.length_take]; exact Nat.min_le_left _ _, rfl⟩)
    | ((try unfold opResult) <;> (repeat' split) <;>
        first
        | exact Or.inl rfl
        | exact Or.inl trivial
        | exact Or.inr (Or.inl ⟨_, rfl, fun k hk => OpTag.noConfusion hk⟩)
        | exact Or.inr (Or.inr ⟨_, by rw [List.length_take]; exact Nat.min_le_left _ _, rfl⟩))
  | false =>
    simp only [hc0, eq_self_iff_true, Bool.false_eq_true, if_true, if_false]
    cases hc1 : isAct (sAction st) "click" with
    | true =>
      simp only [hc1, eq_self_iff_true, Bool.false_eq_true, if_true, if_false]
      first
      | exact Or.inl rfl
      | exact Or.inl trivial
      | exact Or.inr (Or.inl ⟨_, rfl, fun k hk => OpTag.noConfusion hk⟩)
      | exact Or.inr (Or.inr ⟨_, by rw [List.length_take]; exact Nat.min_le_left _ _, rfl⟩)
      | ((try unfold opResult) <;> (repeat' split) <;>
          first
          | exact Or.inl rfl
          | exact Or.inl trivial
          | exact Or.inr (Or.inl ⟨_, rfl, fun k hk => OpTag.noConfusion hk⟩)
          | exact Or.inr (Or.inr ⟨_, by rw [List.length_take]; exact Nat.min_le_left _ _, rfl⟩))
    | false =>
      simp only [hc1, eq_self_iff_true, Bool.false_eq_true, if_true, if_false]
      cases hc2 : isAct (sAction st) "fill" with
      | true =>
        simp only [hc2, eq_self_iff_true, Bool.false_eq_true, if_true, if_false]
        first
        | exact Or.inl rfl
        | exact Or.inl trivial
        | exact Or.inr (Or.inl ⟨_, rfl, fun k hk => OpTag.noConfusion hk⟩)
        | exact Or.inr (Or.inr ⟨_, by rw [List.length_take]; exact Nat.min_le_left _ _, rfl⟩)
        | ((try unfold opResult) <;> (repeat' split) <;>
            first
            | exact Or.inl rfl
            | exact Or.inl trivial
            | exact Or.inr (Or.inl ⟨_, rfl, fun k hk => OpTag.noConfusion hk⟩)
            | exact Or.inr (Or.inr ⟨_, by rw [List.length_take]; exact Nat.min_le_left _ _, rfl⟩))
      | false =>
        simp only [hc2, eq_self_iff_true, Bool.false_eq_true, if_true, if_false]
        cases hc3 : isAct (sAction st) "type" with
        | true =>
          simp only [hc3, eq_self_iff_true, Bool.false_eq_true, if_true, if_false]
          first
          | exact Or.inl rfl
          | exact Or.inl trivial
          | exact Or.inr (Or.inl ⟨_, rfl, fun k hk => OpTag.noConfusion hk⟩)
          | exact Or.inr (Or.inr ⟨_, by rw [List.length_take]; exact Nat.min_le_left _ _, rfl⟩)
          | ((try unfold opResult) <;> (repeat' split) <;>
              first
              | exact Or.inl rfl
              | exact Or.inl trivial
              | exact Or.inr (Or.inl ⟨_, rfl, fun k hk => OpTag.noConfusion hk⟩)
              | exact Or.inr (Or.inr ⟨_, by rw [List.length_take]; exact Nat.min_le_left _ _, rfl⟩))
        | false =>
          simp only [hc3, eq_self_iff_true, Bool.false_eq_true, if_true, if_false]
          cases hc4 : isAct (sAction st) "hover" with
          | true =>
            simp only [hc4, eq_self_iff_true, Bool.false_eq_true, if_true, if_false]
            first
            | exact Or.inl rfl
            | exact Or.inl trivial
            | exact Or.inr (Or.inl ⟨_, rfl, fun k hk => OpTag.noConfusion hk⟩)
            | exact Or.inr (Or.inr ⟨_, by rw [List.length_take]; exact Nat.min_le_left _ _, rfl⟩)
            | ((try unfold opResult) <;> (repeat' split) <;>
                first
                | exact Or.inl rfl
                | exact Or.inl trivial
                | exact Or.inr (Or.inl ⟨_, rfl, fun k hk => OpTag.noConfusion hk⟩)
                | exact Or.inr (Or.inr ⟨_, by rw [List.length_take]; exact Nat.min_le_left _ _, rfl⟩))
          | false =>
            simp only [hc4, eq_self_iff_true, Bool.false_eq_true, if_true, if_false]
            cases hc5 : isAct (sAction st) "press" with
            | true =>
              simp only [hc5, eq_self_iff_true, Bool.false_eq_true, if_true, if_false]
              first
              | exact Or.inl rfl
              | exact Or.inl trivial
              | exact Or.inr (Or.inl ⟨_, rfl, fun k hk => OpTag.noConfusion hk⟩)
              | exact Or.inr (Or.inr ⟨_, by rw [List.length_take]; exact Nat.min_le_left _ _, rfl⟩)
              | ((try unfold opResult) <;> (repeat' split) <;>
                  first
                  | exact Or.inl rfl
                  | exact Or.inl trivial
                  | exact Or.inr (Or.inl ⟨_, rfl, fun k hk => OpTag.noConfusion hk⟩)
                  | exact Or.inr (Or.inr ⟨_, by rw [List.length_take]; exact Nat.min_le_left _ _, rfl⟩))
            | false =>
              simp only [hc5, eq_self_iff_true, Bool.false_eq_true, if_true, if_false]
              cases hc6 : isAct (sAction st) "select" with
              | true =>
                simp only [hc6, eq_self_iff_true, Bool.false_eq_true, if_true, if_false]
                first
                | exact Or.inl rfl
                | exact Or.inl trivial
                | exact Or.inr (Or.inl ⟨_, rfl, fun k hk => OpTag.noConfusion hk⟩)
                | exact Or.inr (Or.inr ⟨_, by rw [List.length_take]; exact Nat.min_le_left _ _, rfl⟩)
                | ((try unfold opResult) <;> (repeat' split) <;>
                    first
                    | exact Or.inl rfl
                    | exact Or.inl trivial
                    | exact Or.inr (Or.inl ⟨_, rfl, fun k hk => OpTag.noConfusion hk⟩)
                    | exact Or.inr (Or.inr ⟨_, by rw [List.length_take]; exact Nat.min_le_left _ _, rfl⟩))
              | false =>
                simp only [hc6, eq_self_iff_true, Bool.false_eq_true, if_true, if_false]
                cases hc7 : isAct (sAction st) "check" with
                | true =>
                  simp only [hc7, eq_self_iff_true, Bool.false_eq_true, if_true, if_false]
                  first
                  | exact Or.inl rfl
                  | exact Or.inl trivial
                  | exact Or.inr (Or.inl ⟨_, rfl, fun k hk => OpTag.noConfusion hk⟩)
                  | exact Or.inr (Or.inr ⟨_, by rw [List.length_take]; exact Nat.min_le_left _ _, rfl⟩)
                  | ((try unfold opResult) <;> (repeat' split) <;>
                      first
                      | exact Or.inl rfl
                      | exact Or.inl trivial
                      | exact Or.inr (Or.inl ⟨_, rfl, fun k hk => OpTag.noConfusion hk⟩)
                      | exact Or.inr (Or.inr ⟨_, by rw [List.length_take]; exact Nat.min_le_left _ _, rfl⟩))
                | false =>
                  simp only [hc7, eq_self_iff_true, Bool.false_eq_true, if_true, if_false]
                  cases hc8 : isAct (sAction st) "uncheck" with
                  | true =>
                    simp only [hc8, eq_self_iff_true, Bool.false_eq_true, if_true, if_false]
                    first
                    | exact Or.inl rfl
                    | exact Or.inl trivial
                    | exact Or.inr (Or.inl ⟨_, rfl, fun k hk => OpTag.noConfusion hk⟩)
                    | exact Or.inr (Or.inr ⟨_, by rw [List.length_take]; exact Nat.min_le_left _ _, rfl⟩)
                    | ((try unfold opResult) <;> (repeat' split) <;>
                        first
                        | exact Or.inl rfl
                        | exact Or.inl trivial
                        | exact Or.inr (Or.inl ⟨_, rfl, fun k hk => OpTag.noConfusion hk⟩)
                        | exact Or.inr (Or.inr ⟨_, by rw [List.length_take]; exact Nat.min_le_left _ _, rfl⟩))
                  | false =>
                    simp only [hc8, eq_self_iff_true, Bool.false_eq_true, if_true, if_false]
                    cases hc9 : isAct (sAction st) "wait" with
                    | true =>
                      simp only [hc9, eq_self_iff_true, Bool.false_eq_true, if_true, if_false]
                      first
                      | exact Or.inl rfl
                      | exact Or.inl trivial
                      | exact Or.inr (Or.inl ⟨_, rfl, fun k hk => OpTag.noConfusion hk⟩)
                      | exact Or.inr (Or.inr ⟨_, by rw [List.length_take]; exact Nat.min_le_left _ _, rfl⟩)
                      | ((try unfold opResult) <;> (repeat' split) <;>
                          first
                          | exact Or.inl rfl
                          | exact Or.inl trivial
                          | exact Or.inr (Or.inl ⟨_, rfl, fun k hk => OpTag.noConfusion hk⟩)
                          | exact Or.inr (Or.inr ⟨_, by rw [List.length_take]; exact Nat.min_le_left _ _, rfl⟩))
                    | false =>
                      simp only [hc9, eq_self_iff_true, Bool.false_eq_true, if_true, if_false]
                      cases hc10 : isAct (sAction st) "wait_selector" with
                      | true =>
                        simp only [hc10, eq_self_iff_true, Bool.false_eq_true, if_true, if_false]
                        first
                        | exact Or.inl rfl
                        | exact Or.inl trivial
                        | exact Or.inr (Or.inl ⟨_, rfl, fun k hk => OpTag.noConfusion hk⟩)
                        | exact Or.inr (Or.inr ⟨_, by rw [List.length_take]; exact Nat.min_le_left _ _, rfl⟩)
                        | ((try unfold opResult) <;> (repeat' split) <;>
                            first
                            | exact Or.inl rfl
                            | exact Or.inl trivial
                            | exact Or.inr (Or.inl ⟨_, rfl, fun k hk => OpTag.noConfusion hk⟩)
                            | exact Or.inr (Or.inr ⟨_, by rw [List.length_take]; exact Nat.min_le_left _ _, rfl⟩))
                      | false =>
                        simp only [hc10, eq_self_iff_true, Bool.false_eq_true, if_true, if_false]
                        cases hc11 : isAct (sAction st) "wait_url" with
                        | true =>
                          simp only [hc11, eq_self_iff_true, Bool.false_eq_true, if_true, if_false]
                          first
                          | exact Or.inl rfl
                          | exact Or.inl trivial
                          | exact Or.inr (Or.inl ⟨_, rfl, fun k hk => OpTag.noConfusion hk⟩)
                          | exact Or.inr (Or.inr ⟨_, by rw [List.length_take]; exact Nat.min_le_left _ _, rfl⟩)
                          | ((try unfold opResult) <;> (repeat' split) <;>
                              first
                              | exact Or.inl rfl
                              | exact Or.inl trivial
                              | exact Or.inr (Or.inl ⟨_, rfl, fun k hk => OpTag.noConfusion hk⟩)
                              | exact Or.inr (Or.inr ⟨_, by rw [List.length_take]; exact Nat.min_le_left _ _, rfl⟩))
                        | false =>
                          simp only [hc11, eq_self_iff_true, Bool.false_eq_true, if_true, if_false]
                          cases hc12 : isAct (sAction st) "get_text" with
                          | true =>
                            simp only [hc12, eq_self_iff_true, Bool.false_eq_true, if_true, if_false]
                            first
                            | exact Or.inl rfl
                            | exact Or.inl trivial
                            | exact Or.inr (Or.inl ⟨_, rfl, fun k hk => OpTag.noConfusion hk⟩)
                            | exact Or.inr (Or.inr ⟨_, by rw [List.length_take]; exact Nat.min_le_left _ _, rfl⟩)
                            | ((try unfold opResult) <;> (repeat' split) <;>
                                first
                                | exact Or.inl rfl
                                | exact Or.inl trivial
                                | exact Or.inr (Or.inl ⟨_, rfl, fun k hk => OpTag.noConfusion hk⟩)
                                | exact Or.inr (Or.inr ⟨_, by rw [List.length_take]; exact Nat.min_le_left _ _, rfl⟩))
                          | false =>
                            simp only [hc12, eq_self_iff_true, Bool.false_eq_true, if_true, if_false]
                            cases hc13 : isAct (sAction st) "get_attribute" with
                            | true =>
                              simp only [hc13, eq_self_iff_true, Bool.false_eq_true, if_true, if_false]
                              first
                              | exact Or.inl rfl
                              | exact Or.inl trivial
                              | exact Or.inr (Or.inl ⟨_, rfl, fun k hk => OpTag.noConfusion hk⟩)
                              | exact Or.inr (Or.inr ⟨_, by rw [List.length_take]; exact Nat.min_le_left _ _, rfl⟩)
                              | ((try unfold opResult) <;> (repeat' split) <;>
                                  first
                                  | exact Or.inl rfl
                                  | exact Or.inl trivial
                                  | exact Or.inr (Or.inl ⟨_, rfl, fun k hk => OpTag.noConfusion hk⟩)
                                  | exact Or.inr (Or.inr ⟨_, by rw [List.length_take]; exact Nat.min_le_left _ _, rfl⟩))
                            | false =>
                              simp only [hc13, eq_self_iff_true, Bool.false_eq_true, if_true, if_false]
                              cases hc14 : isAct (sAction st) "get_value" with
                              | true =>
                                simp only [hc14, eq_self_iff_true, Bool.false_eq_true, if_true, if_false]
                                first
                                | exact Or.inl rfl
                                | exact Or.inl trivial
                                | exact Or.inr (Or.inl ⟨_, rfl, fun k hk => OpTag.noConfusion hk⟩)
                                | exact Or.inr (Or.inr ⟨_, by rw [List.length_take]; exact Nat.min_le_left _ _, rfl⟩)
                                | ((try unfold opResult) <;> (repeat' split) <;>
                                    first
                                    | exact Or.inl rfl
                                    | exact Or.inl trivial
                                    | exact Or.inr (Or.inl ⟨_, rfl, fun k hk => OpTag.noConfusion hk⟩)
                                    | exact Or.inr (Or.inr ⟨_, by rw [List.length_take]; exact Nat.min_le_left _ _, rfl⟩))
                              | false =>
                                simp only [hc14, eq_self_iff_true, Bool.false_eq_true, if_true, if_false]
                                cases hc15 : isAct (sAction st) "list_elements" with
                                | true =>
                                  simp only [hc15, eq_self_iff_true, Bool.false_eq_true, if_true, if_false]
                                  first
                                  | exact Or.inl rfl
                                  | exact Or.inl trivial
                                  | exact Or.inr (Or.inl ⟨_, rfl, fun k hk => OpTag.noConfusion hk⟩)
                                  | exact Or.inr (Or.inr ⟨_, by rw [List.length_take]; exact Nat.min_le_left _ _, rfl⟩)
                                  | ((try unfold opResult) <;> (repeat' split) <;>
                                      first
                                      | exact Or.inl rfl
                                      | exact Or.inl trivial
                                      | exact Or.inr (Or.inl ⟨_, rfl, fun k hk => OpTag.noConfusion hk⟩)
                                      | exact Or.inr (Or.inr ⟨_, by rw [List.length_take]; exact Nat.min_le_left _ _, rfl⟩))
                                | false =>
                                  simp only [hc15, eq_self_iff_true, Bool.false_eq_true, if_true, if_false]
                                  cases hc16 : isAct (sAction st) "evaluate" with
                                  | true =>
                                    simp only [hc16, eq_self_iff_true, Bool.false_eq_true, if_true, if_false]
                                    first
                                    | exact Or.inl rfl
                                    | exact Or.inl trivial
                                    | exact Or.inr (Or.inl ⟨_, rfl, fun k hk => OpTag.noConfusion hk⟩)
                                    | exact Or.inr (Or.inr ⟨_, by rw [List.length_take]; exact Nat.min_le_left _ _, rfl⟩)
                                    | ((try unfold opResult) <;> (repeat' split) <;>
                                        first
                                        | exact Or.inl rfl
                                        | exact Or.inl trivial
                                        | exact Or.inr (Or.inl ⟨_, rfl, fun k hk => OpTag.noConfusion hk⟩)
                                        | exact Or.inr (Or.inr ⟨_, by rw [List.length_take]; exact Nat.min_le_left _ _, rfl⟩))
                                  | false =>
                                    simp only [hc16, eq_self_iff_true, Bool.false_eq_true, if_true, if_false]
                                    cases hc17 : isAct (sAction st) "go_back" with
                                    | true =>
                                      simp only [hc17, eq_self_iff_true, Bool.false_eq_true, if_true, if_false]
                                      first
                                      | exact Or.inl rfl
                                      | exact Or.inl trivial
                                      | exact Or.inr (Or.inl ⟨_, rfl, fun k hk => OpTag.noConfusion hk⟩)
                                      | exact Or.inr (Or.inr ⟨_, by rw [List.length_take]; exact Nat.min_le_left _ _, rfl⟩)
                                      | ((try unfold opResult) <;> (repeat' split) <;>
                                          first
                                          | exact Or.inl rfl
                                          | exact Or.inl trivial
                                          | exact Or.inr (Or.inl ⟨_, rfl, fun k hk => OpTag.noConfusion hk⟩)
                                          | exact Or.inr (Or.inr ⟨_, by rw [List.length_take]; exact Nat.min_le_left _ _, rfl⟩))
                                    | false =>
                                      simp only [hc17, eq_self_iff_true, Bool.false_eq_true, if_true, if_false]
                                      cases hc18 : isAct (sAction st) "go_forward" with
                                      | true =>
                                        simp only [hc18, eq_self_iff_true, Bool.false_eq_true, if_true, if_false]
                                        first
                                        | exact Or.inl rfl
                                        | exact Or.inl trivial
                                        | exact Or.inr (Or.inl ⟨_, rfl, fun k hk => OpTag.noConfusion hk⟩)
                                        | exact Or.inr (Or.inr ⟨_, by rw [List.length_take]; exact Nat.min_le_left _ _, rfl⟩)
                                        | ((try unfold opResult) <;> (repeat' split) <;>
                                            first
                                            | exact Or.inl rfl
                                            | exact Or.inl trivial
                                            | exact Or.inr (Or.inl ⟨_, rfl, fun k hk => OpTag.noConfusion hk⟩)
                                            | exact Or.inr (Or.inr ⟨_, by rw [List.length_take]; exact Nat.min_le_left _ _, rfl⟩))
                                      | false =>
                                        simp only [hc18, eq_self_iff_true, Bool.false_eq_true, if_true, if_false]
                                        cases hc19 : isAct (sAction st) "reload" with
                                        | true =>
                                          simp only [hc19, eq_self_iff_true, Bool.false_eq_true, if_true, if_false]
                                          first
                                          | exact Or.inl rfl
                                          | exact Or.inl trivial
                                          | exact Or.inr (Or.inl ⟨_, rfl, fun k hk => OpTag.noConfusion hk⟩)
                                          | exact Or.inr (Or.inr ⟨_, by rw [List.length_take]; exact Nat.min_le_left _ _, rfl⟩)
                                          | ((try unfold opResult) <;> (repeat' split) <;>
                                              first
                                              | exact Or.inl rfl
                                              | exact Or.inl trivial
                                              | exact Or.inr (Or.inl ⟨_, rfl, fun k hk => OpTag.noConfusion hk⟩)
                                              | exact Or.inr (Or.inr ⟨_, by rw [List.length_take]; exact Nat.min_le_left _ _, rfl⟩))
                                        | false =>
                                          simp only [hc19, eq_self_iff_true, Bool.false_eq_true, if_true, if_false]
                                          cases hc20 : isAct (sAction st) "scroll" with
                                          | true =>
                                            simp only [hc20, eq_self_iff_true, Bool.false_eq_true, if_true, if_false]
                                            first
                                            | exact Or.inl rfl
                                            | exact Or.inl trivial
                                            | exact Or.inr (Or.inl ⟨_, rfl, fun k hk => OpTag.noConfusion hk⟩)
                                            | exact Or.inr (Or.inr ⟨_, by rw [List.length_take]; exact Nat.min_le_left _ _, rfl⟩)
                                            | ((try unfold opResult) <;> (repeat' split) <;>
                                                first
                                                | exact Or.inl rfl
                                                | exact Or.inl trivial
                                                | exact Or.inr (Or.inl ⟨_, rfl, fun k hk => OpTag.noConfusion hk⟩)
                                                | exact Or.inr (Or.inr ⟨_, by rw [List.length_take]; exact Nat.min_le_left _ _, rfl⟩))
                                          | false =>
                                            simp only [hc20, eq_self_iff_true, Bool.false_eq_true, if_true, if_false]
                                            cases hc21 : isAct (sAction st) "focus" with
                                            | true =>
                                              simp only [hc21, eq_self_iff_true, Bool.false_eq_true, if_true, if_false]
                                              first
                                              | exact Or.inl rfl
                                              | exact Or.inl trivial
                                              | exact Or.inr (Or.inl ⟨_, rfl, fun k hk => OpTag.noConfusion hk⟩)
                                              | exact Or.inr (Or.inr ⟨_, by rw [List.length_take]; exact Nat.min_le_left _ _, rfl⟩)
                                              | ((try unfold opResult) <;> (repeat' split) <;>
                                                  first
                                                  | exact Or.inl rfl
                                                  | exact Or.inl trivial
                                                  | exact Or.inr (Or.inl ⟨_, rfl, fun k hk => OpTag.noConfusion hk⟩)
                                                  | exact Or.inr (Or.inr ⟨_, by rw [List.length_take]; exact Nat.min_le_left _ _, rfl⟩))
                                            | false =>
                                              simp only [hc21, eq_self_iff_true, Bool.false_eq_true, if_true, if_false]
                                              cases hc22 : isAct (sAction st) "blur" with
                                              | true =>
                                                simp only [hc22, eq_self_iff_true, Bool.false_eq_true, if_true, if_false]
                                                first
                                                | exact Or.inl rfl
                                                | exact Or.inl trivial
                                                | exact Or.inr (Or.inl ⟨_, rfl, fun k hk => OpTag.noConfusion hk⟩)
                                                | exact Or.inr (Or.inr ⟨_, by rw [List.length_take]; exact Nat.min_le_left _ _, rfl⟩)
                                                | ((try unfold opResult) <;> (repeat' split) <;>
                                                    first
                                                    | exact Or.inl rfl
                                                    | exact Or.inl trivial
                                                    | exact Or.inr (Or.inl ⟨_, rfl, fun k hk => OpTag.noConfusion hk⟩)
                                                    | exact Or.inr (Or.inr ⟨_, by rw [List.length_take]; exact Nat.min_le_left _ _, rfl⟩))
                                              | false =>
                                                simp only [hc22, eq_self_iff_true, Bool.false_eq_true, if_true, if_false]
                                                cases hc23 : isAct (sAction st) "drag" with
                                                | true =>
                                                  simp only [hc23, eq_self_iff_true, Bool.false_eq_true, if_true, if_false]
                                                  first
                                                  | exact Or.inl rfl
                                                  | exact Or.inl trivial
                                                  | exact Or.inr (Or.inl ⟨_, rfl, fun k hk => OpTag.noConfusion hk⟩)
                                                  | exact Or.inr (Or.inr ⟨_, by rw [List.length_take]; exact Nat.min_le_left _ _, rfl⟩)
                                                  | ((try unfold opResult) <;> (repeat' split) <;>
                                                      first
                                                      | exact Or.inl rfl
                                                      | exact Or.inl trivial
                                                      | exact Or.inr (Or.inl ⟨_, rfl, fun k hk => OpTag.noConfusion hk⟩)
                                                      | exact Or.inr (Or.inr ⟨_, by rw [List.length_take]; exact Nat.min_le_left _ _, rfl⟩))
                                                | false =>
                                                  simp only [hc23, eq_self_iff_true, Bool.false_eq_true, if_true, if_false]
                                                  cases hc24 : isAct (sAction st) "upload_file" with
                                                  | true =>
                                                    simp only [hc24, eq_self_iff_true, Bool.false_eq_true, if_true, if_false]
                                                    first
                                                    | exact Or.inl rfl
                                                    | exact Or.inl trivial
                                                    | exact Or.inr (Or.inl ⟨_, rfl, fun k hk => OpTag.noConfusion hk⟩)
                                                    | exact Or.inr (Or.inr ⟨_, by rw [List.length_take]; exact Nat.min_le_left _ _, rfl⟩)
                                                    | ((try unfold opResult) <;> (repeat' split) <;>
                                                        first
                                                        | exact Or.inl rfl
                                                        | exact Or.inl trivial
                                                        | exact Or.inr (Or.inl ⟨_, rfl, fun k hk => OpTag.noConfusion hk⟩)
                                                        | exact Or.inr (Or.inr ⟨_, by rw [List.length_take]; exact Nat.min_le_left _ _, rfl⟩))
                                                  | false =>
                                                    simp only [hc24, eq_self_iff_true, Bool.false_eq_true, if_true, if_false]
                                                    cases hc25 : isAct (sAction st) "get_url" with
                                                    | true =>
                                                      simp only [hc25, eq_self_iff_true, Bool.false_eq_true, if_true, if_false]
                                                      first
                                                      | exact Or.inl rfl
                                                      | exact Or.inl trivial
                                                      | exact Or.inr (Or.inl ⟨_, rfl, fun k hk => OpTag.noConfusion hk⟩)
                                                      | exact Or.inr (Or.inr ⟨_, by rw [List.length_take]; exact Nat.min_le_left _ _, rfl⟩)
                                                      | ((try unfold opResult) <;> (repeat' split) <;>
                                                          first
                                                          | exact Or.inl rfl
                                                          | exact Or.inl trivial
                                                          | exact Or.inr (Or.inl ⟨_, rfl, fun k hk => OpTag.noConfusion hk⟩)
                                                          | exact Or.inr (Or.inr ⟨_, by rw [List.length_take]; exact Nat.min_le_left _ _, rfl⟩))
                                                    | false =>
                                                      simp only [hc25, eq_self_iff_true, Bool.false_eq_true, if_true, if_false]
                                                      cases hc26 : isAct (sAction st) "get_title" with
                                                      | true =>
                                                        simp only [hc26, eq_self_iff_true, Bool.false_eq_true, if_true, if_false]
                                                        first
                                                        | exact Or.inl rfl
                                                        | exact Or.inl trivial
                                                        | exact Or.inr (Or.inl ⟨_, rfl, fun k hk => OpTag.noConfusion hk⟩)
                                                        | exact Or.inr (Or.inr ⟨_, by rw [List.length_take]; exact Nat.min_le_left _ _, rfl⟩)
                                                        | ((try unfold opResult) <;> (repeat' split) <;>
                                                            first
                                                            | exact Or.inl rfl
                                                            | exact Or.inl trivial
                                                            | exact Or.inr (Or.inl ⟨_, rfl, fun k hk => OpTag.noConfusion hk⟩)
                                                            | exact Or.inr (Or.inr ⟨_, by rw [List.length_take]; exact Nat.min_le_left _ _, rfl⟩))
                                                      | false =>
                                                        simp only [hc26, eq_self_iff_true, Bool.false_eq_true, if_true, if_false]
                                                        first
                                                        | exact Or.inl rfl
                                                        | exact Or.inl trivial
                                                        | exact Or.inr (Or.inl ⟨_, rfl, fun k hk => OpTag.noConfusion hk⟩)
                                                        | exact Or.inr (Or.inr ⟨_, by rw [List.length_take]; exact Nat.min_le_left _ _, rfl⟩)
                                                        | ((try unfold opResult) <;> (repeat' split) <;>
                                                            first
                                                            | exact Or.inl rfl
                                                            | exact Or.inl trivial
                                                            | exact Or.inr (Or.inl ⟨_, rfl, fun k hk => OpTag.noConfusion hk⟩)
                                                            | exact Or.inr (Or.inr ⟨_, by rw [List.length_take]; exact Nat.min_le_left _ _, rfl⟩))

/-- Every record `page_action` appends — whether from a branch or from the
`except` clause — starts with the step index and the action value. -/
lemma runStep_shape (pg : Page) (d : String) (i : Nat) (st : JObj) :
    ∃ rest, (runStep pg d i st).1 = mkStepRec i (sAction st) rest := by
  have hs := stepBody_shape pg d i st
  rcases h : stepBody pg d i st with ⟨res, tr⟩
  rw [h] at hs
  unfold runStep
  rw [h]
  cases res with
  | ok r =>
    rcases hs with ⟨rest, hok⟩ | ⟨e, herr⟩
    · injection hok with hok
      exact ⟨rest, hok⟩
    · exact absurd herr (by simp)
  | error e => exact ⟨_, rfl⟩

/-- Looking up `step` in a step record yields the step index. -/
lemma mkStepRec_get_step (i : Nat) (a : Option JVal) (rest : JObj) :
    pyGet (mkStepRec i a rest) "step" = some (.jnum (Int.ofNat i)) := by
  simp [mkStepRec, pyGet, List.find?]

/-- Looking up `action` in a step record yields the step's action value. -/
lemma mkStepRec_get_action (i : Nat) (a : Option JVal) (rest : JObj) :
    pyGet (mkStepRec i a rest) "action" = some (jOpt a) := by
  simp [mkStepRec, pyGet, List.find?]

/-- The loop appends exactly one record per step. -/
lemma runStepsFrom_length (pg : Page) (d : String) :
    ∀ (l : List JObj) (base : Nat), ((runStepsFrom pg d base l).1).length = l.length := by
  intro l
  induction l with
  | nil => intro base; rfl
  | cons s rest ih =>
    intro base
    simp only [runStepsFrom, List.length_cons]
    rw [← ih (base + 1)]

/-- The `j`-th appended record is the record of the `j`-th remaining step,
processed at index `base + j`. -/
lemma runStepsFrom_getElem? (pg : Page) (d : String) :
    ∀ (l : List JObj) (base j : Nat),
      ((runStepsFrom pg d base l).1)[j]? =
        (l[j]?).map (fun st => (runStep pg d (base + j) st).1) := by
  intro l
  induction l with
  | nil => intro base j; simp [runStepsFrom]
  | cons s rest ih =>
    intro base j
    cases j with
    | zero => simp [runStepsFrom]
    | succ j =>
      simp only [runStepsFrom, List.getElem?_cons_succ]
      rw [ih (base + 1) j]
      have e : base + 1 + j = base + (j + 1) := by omega
      rw [e]

/-- The `except` clause does not touch the trace: a step's trace is its
`try:` body's trace whether or not an exception was raised. -/
lemma runStep_trace (pg : Page) (d : String) (i : Nat) (st : JObj) :
    (runStep pg d i st).2 = (stepBody pg d i st).2 := by
  unfold runStep
  rcases h : stepBody pg d i st with ⟨res, tr⟩
  cases res <;> rfl

/-- A single step never records the same library operation twice. -/
lemma runStep_trace_nodup (pg : Page) (d : String) (i : Nat) (st : JObj) :
    (runStep pg d i st).2.Nodup := by
  rw [runStep_trace]
  rcases stepBody_trace_shape pg d i st with h | ⟨t, h, _⟩ | ⟨k, _, h⟩ <;> rw [h]
  · exact List.nodup_nil
  · exact List.nodup_singleton t
  · refine List.nodup_cons.mpr ⟨?_, ?_⟩
    · intro hmem
      rcases List.mem_map.mp hmem with ⟨k, _, hk⟩
      exact OpTag.noConfusion hk
    · exact (List.nodup_range k).map (fun a b hab => by injection hab)

/-- Every trace entry of the loop started at `base` belongs to a step index
at least `base`. -/
lemma runStepsFrom_trace_ge (pg : Page) (d : String) :
    ∀ (l : List JObj) (base : Nat) (p : Nat × OpTag),
      p ∈ (runStepsFrom pg d base l).2 → base ≤ p.1 := by
  intro l
  induction l with
  | nil => intro base p hp; simp [runStepsFrom] at hp
  | cons s rest ih =>
    intro base p hp
    simp only [runStepsFrom, List.mem_append] at hp
    rcases hp with hp | hp
    · rcases List.mem_map.mp hp with ⟨t, _, ht⟩
      simp [← ht]
    · exact Nat.le_of_succ_le (ih (base + 1) p hp)

/-- The full trace of one pass over the action list has no duplicate
entries: no step invokes the same library operation twice. -/
lemma runStepsFrom_trace_nodup (pg : Page) (d : String) :
    ∀ (l : List JObj) (base : Nat), ((runStepsFrom pg d base l).2).Nodup := by
  intro l
  induction l with
  | nil => intro base; simp [runStepsFrom]
  | cons s rest ih =>
    intro base
    simp only [runStepsFrom]
    refine List.Nodup.append ?_ (ih (base + 1)) ?_
    · exact (runStep_trace_nodup pg d base s).map
        (fun a b hab => congrArg Prod.snd hab)
    · intro p hp hp2
      have h1 : p.1 = base := by
        rcases List.mem_map.mp hp with ⟨t, _, ht⟩
        simp [← ht]
      have h2 : base + 1 ≤ p.1 := runStepsFrom_trace_ge pg d rest (base + 1) p hp2
      omega

/-- Relation between the action string and each dispatch test: when the
action is the string `s`, each test compares `s` with its literal. -/
lemma isAct_eq (a : Option JVal) (s t : String) (ha : actionStr a = some s) :
    isAct a t = (s == t) := by
  rcases a with _ | v
  · simp [actionStr] at ha
  · cases v <;> simp_all [actionStr, isAct, pyEqStr]

/-- A missing or non-string action value fails every dispatch test. -/
lemma isAct_none (a : Option JVal) (t : String) (ha : actionStr a = none) :
    isAct a t = false := by
  rcases a with _ | v
  · rfl
  · cases v <;> simp_all [actionStr, isAct, pyEqStr]

/-- When the `try:` body succeeds, the loop iteration returns its record
and trace unchanged. -/
lemma runStep_of_ok (pg : Page) (d : String) (i : Nat) (st : JObj)
    (r : JObj) (tr : List OpTag) (h : stepBody pg d i st = (.ok r, tr)) :
    runStep pg d i st = (r, tr) := by
  unfold runStep
  rw [h]

/-- When the `try:` body raises, the `except` clause appends the error
record for the step. -/
lemma runStep_of_error (pg : Page) (d : String) (i : Nat) (st : JObj)
    (e : String) (h : (stepBody pg d i st).1 = .error e) :
    (runStep pg d i st).1 =
      mkStepRec i (sAction st) [("status", .jstr "error"), ("error", .jstr e)] := by
  unfold runStep
  rcases hsb : stepBody pg d i st with ⟨res, tr⟩
  rw [hsb] at h
  simp only at h
  subst h
  rfl

/-- A step whose action value is not one of the tested strings falls
through every dispatch test to the unknown-action branch: no library
operation runs, and an `Unknown action` error record is produced. -/
lemma stepBody_unrecognized (pg : Page) (d : String) (i : Nat) (st : JObj)
    (h : isRecognized (sAction st) = false) :
    stepBody pg d i st =
      (.ok (mkStepRec i (sAction st) [("status", .jstr "error"),
         ("error", .jstr ("Unknown action: " ++ pyFstr (sAction st)))]), []) := by
  have hf : ∀ t, t ∈ recognizedActions → isAct (sAction st) t = false := by
    intro t ht
    rcases ha : actionStr (sAction st) with _ | s
    · exact isAct_none _ _ ha
    · rw [isAct_eq _ _ _ ha]
      refine beq_eq_false_iff_ne.mpr (fun hst => ?_)
      subst hst
      rw [isRecognized, ha] at h
      simp only [List.contains_eq_any_beq] at h
      simp only [List.any_eq_false, beq_iff_eq] at h
      exact h _ ht rfl
  unfold stepBody
  simp only [hf "screenshot" (by decide),
      hf "click" (by decide),
      hf "fill" (by decide),
      hf "type" (by decide),
      hf "hover" (by decide),
      hf "press" (by decide),
      hf "select" (by decide),
      hf "check" (by decide),
      hf "uncheck" (by decide),
      hf "wait" (by decide),
      hf "wait_selector" (by decide),
      hf "wait_url" (by decide),
      hf "get_text" (by decide),
      hf "get_attribute" (by decide),
      hf "get_value" (by decide),
      hf "list_elements" (by decide),
      hf "evaluate" (by decide),
      hf "go_back" (by decide),
      hf "go_forward" (by decide),
      hf "reload" (by decide),
      hf "scroll" (by decide),
      hf "focus" (by decide),
      hf "blur" (by decide),
      hf "drag" (by decide),
      hf "upload_file" (by decide),
      hf "get_url" (by decide),
      hf "get_title" (by decide),
    Bool.false_eq_true, if_false]


/-! Concrete fixtures used by witnesses and counterexamples. -/

/-- A page on which every library operation succeeds. -/
def okPage : Page where
  url := "http://final/"
  screenshot := fun _ => .ok ()
  click := fun _ _ => .ok ()
  fill := fun _ _ _ => .ok ()
  typeText := fun _ _ _ => .ok ()
  hover := fun _ _ => .ok ()
  press := fun _ _ _ => .ok ()
  select_option := fun _ _ _ => .ok ()
  check := fun _ _ => .ok ()
  uncheck := fun _ _ => .ok ()
  wait_for_timeout := fun _ => .ok ()
  wait_for_selector := fun _ _ => .ok ()
  wait_for_url := fun _ _ => .ok ()
  first_inner_text := fun _ => .ok "hello"
  first_get_attribute := fun _ _ => .ok (.jstr "http://a/")
  first_input_value := fun _ => .ok "v"
  locator_all := fun _ => .ok [⟨.ok "one"⟩]
  evaluate := fun _ => .ok (.jstr "42")
  go_back := fun _ => .ok ()
  go_forward := fun _ => .ok ()
  reload := fun _ => .ok ()
  scroll_into_view := fun _ => .ok ()
  focus := fun _ _ => .ok ()
  blur := fun _ => .ok ()
  drag_and_drop := fun _ _ _ => .ok ()
  set_input_files := fun _ _ _ => .ok ()
  title := .ok "Title"

/-- A page on which every library operation raises `boom`. -/
def failPage : Page where
  url := "http://final/"
  screenshot := fun _ => .error "boom"
  click := fun _ _ => .error "boom"
  fill := fun _ _ _ => .error "boom"
  typeText := fun _ _ _ => .error "boom"
  hover := fun _ _ => .error "boom"
  press := fun _ _ _ => .error "boom"
  select_option := fun _ _ _ => .error "boom"
  check := fun _ _ => .error "boom"
  uncheck := fun _ _ => .error "boom"
  wait_for_timeout := fun _ => .error "boom"
  wait_for_selector := fun _ _ => .error "boom"
  wait_for_url := fun _ _ => .error "boom"
  first_inner_text := fun _ => .error "boom"
  first_get_attribute := fun _ _ => .error "boom"
  first_input_value := fun _ => .error "boom"
  locator_all := fun _ => .error "boom"
  evaluate := fun _ => .error "boom"
  go_back := fun _ => .error "boom"
  go_forward := fun _ => .error "boom"
  reload := fun _ => .error "boom"
  scroll_into_view := fun _ => .error "boom"
  focus := fun _ _ => .error "boom"
  blur := fun _ => .error "boom"
  drag_and_drop := fun _ _ _ => .error "boom"
  set_input_files := fun _ _ _ => .error "boom"
  title := .error "boom"

/-- A click step. -/
def stClick : JObj := [("action", .jstr "click"), ("selector", .jstr "#b")]

/-- A get_url step. -/
def stGetUrl : JObj := [("action", .jstr "get_url")]

/-- A step with an unrecognized action string. -/
def stBogus : JObj := [("action", .jstr "bogus")]

/-! Claim theorems. -/

/-- C1: for every action list and every step index `i`, if the library
call made for step `i` raises an exception (the `try:` body of the step
evaluates to that exception), the record
`{'step': i, 'action': action, 'status': 'error', 'error': msg}` is
appended at position `i` of the result list, and every step still
contributes exactly one record — the pass never aborts. -/
theorem C1_failing_step_recorded_and_continues
    (pg : Page) (d : String) (steps : List JObj) (i : Nat) (st : JObj)
    (e : String) (hst : steps[i]? = some st)
    (herr : (stepBody pg d i st).1 = .error e) :
    (pageActionResults pg d steps).length = steps.length ∧
      (pageActionResults pg d steps)[i]? =
        some (mkStepRec i (sAction st)
          [("status", .jstr "error"), ("error", .jstr e)]) := by
  refine ⟨runStepsFrom_length pg d steps 0, ?_⟩
  rw [pageActionResults, runStepsFrom_getElem? pg d steps 0 i, hst]
  simp only [Option.map_some', Nat.zero_add]
  rw [runStep_of_error pg d i st e herr]

/-- Witness for C1 at a concrete failing click step. -/
theorem C1_witness :
    (pageActionResults failPage "." [stClick, stGetUrl]).length =
        [stClick, stGetUrl].length ∧
      (pageActionResults failPage "." [stClick, stGetUrl])[0]? =
        some (mkStepRec 0 (sAction stClick)
          [("status", .jstr "error"), ("error", .jstr "boom")]) :=
  C1_failing_step_recorded_and_continues failPage "." [stClick, stGetUrl] 0
    stClick "boom" rfl rfl

/-- C3: steps are processed in list order: the result list has one record
per action step, and the `i`-th record carries `'step': i` and the
`'action'` value of the `i`-th input step. -/
theorem C3_results_in_input_order
    (pg : Page) (d : String) (steps : List JObj) (i : Nat) (st : JObj)
    (hst : steps[i]? = some st) :
    (pageActionResults pg d steps).length = steps.length ∧
      ∃ r, (pageActionResults pg d steps)[i]? = some r ∧
        pyGet r "step" = some (.jnum (Int.ofNat i)) ∧
        pyGet r "action" = some (jOpt (sAction st)) := by
  refine ⟨runStepsFrom_length pg d steps 0, ?_⟩
  rcases runStep_shape pg d i st with ⟨rest, hr⟩
  refine ⟨(runStep pg d i st).1, ?_, ?_, ?_⟩
  · rw [pageActionResults, runStepsFrom_getElem? pg d steps 0 i, hst]
    simp only [Option.map_some', Nat.zero_add]
  · rw [hr]; exact mkStepRec_get_step i (sAction st) rest
  · rw [hr]; exact mkStepRec_get_action i (sAction st) rest

/-- Witness for C3 at a concrete two-step list. -/
theorem C3_witness :
    (pageActionResults okPage "." [stClick, stGetUrl]).length =
        [stClick, stGetUrl].length ∧
      ∃ r, (pageActionResults okPage "." [stClick, stGetUrl])[1]? = some r ∧
        pyGet r "step" = some (.jnum (Int.ofNat 1)) ∧
        pyGet r "action" = some (jOpt (sAction stGetUrl)) :=
  C3_results_in_input_order okPage "." [stClick, stGetUrl] 1 stGetUrl rfl

/-- C7: each library operation is invoked at most once per pass over the
action list — the pass's trace, tagged by step index, has no duplicate
entry, so a failing step's call is never retried. -/
theorem C7_no_retry_within_pass (pg : Page) (d : String) (steps : List JObj) :
    (pageActionTrace pg d steps).Nodup :=
  runStepsFrom_trace_nodup pg d steps 0

/-- C8: a step whose action value matches none of the recognized names
(including a missing `action` key) invokes no library operation, appends
`{'step': i, 'action': ..., 'status': 'error', 'error': 'Unknown action:
...'}`, and the remaining steps still run: one record per step. -/
theorem C8_unknown_action_skips_library
    (pg : Page) (d : String) (steps : List JObj) (i : Nat) (st : JObj)
    (hst : steps[i]? = some st)
    (hunrec : isRecognized (sAction st) = false) :
    (runStep pg d i st).2 = [] ∧
      (pageActionResults pg d steps)[i]? =
        some (mkStepRec i (sAction st) [("status", .jstr "error"),
          ("error", .jstr ("Unknown action: " ++ pyFstr (sAction st)))]) ∧
      (pageActionResults pg d steps).length = steps.length := by
  have hub := stepBody_unrecognized pg d i st hunrec
  refine ⟨?_, ?_, runStepsFrom_length pg d steps 0⟩
  · rw [runStep_trace, hub]
  · rw [pageActionResults, runStepsFrom_getElem? pg d steps 0 i, hst]
    simp only [Option.map_some', Nat.zero_add]
    rw [runStep_of_ok pg d i st _ _ hub]

/-- Witness for C8 at a concrete unrecognized step. -/
theorem C8_witness :
    (runStep okPage "." 0 stBogus).2 = [] ∧
      (pageActionResults okPage "." [stBogus, stGetUrl])[0]? =
        some (mkStepRec 0 (sAction stBogus) [("status", .jstr "error"),
          ("error", .jstr ("Unknown action: " ++ pyFstr (sAction stBogus)))]) ∧
      (pageActionResults okPage "." [stBogus, stGetUrl]).length =
        [stBogus, stGetUrl].length :=
  C8_unknown_action_skips_library okPage "." [stBogus, stGetUrl] 0 stBogus
    rfl rfl

set_option maxHeartbeats 4000000 in
/-- Per-action trace characterization for a recognized action string `s`:
every action other than `list_elements`, `get_url`, `wait` and `screenshot`
performs exactly one library operation; `get_url` performs none (it reads
the `page.url` attribute); `wait` and `screenshot` perform at most one
(their argument conversion can raise first); `list_elements` performs one
enumeration plus one `inner_text` per listed element, at most 50. -/
lemma stepBody_trace_len (pg : Page) (d : String) (i : Nat) (st : JObj)
    (s : String) (ha : actionStr (sAction st) = some s)
    (hrec : s ∈ recognizedActions) :
    (s ∉ (["list_elements", "get_url", "wait", "screenshot"] : List String) →
        (stepBody pg d i st).2.length = 1) ∧
      (s = "get_url" → (stepBody pg d i st).2 = []) ∧
      ((s = "wait" ∨ s = "screenshot") → (stepBody pg d i st).2.length ≤ 1) ∧
      (s = "list_elements" → ∃ k, k ≤ 50 ∧ (stepBody pg d i st).2 =
        .opLocatorAll :: (List.range k).map .opElemText) := by
  unfold stepBody
  cases hc0 : isAct (sAction st) "screenshot" with
  | true =>
    simp only [hc0, eq_self_iff_true, Bool.false_eq_true, if_true, if_false]
    rw [isAct_eq _ _ _ ha] at hc0
    have hs := eq_of_beq hc0
    subst hs
    refine ⟨?_, ?_, ?_, ?_⟩
    · intro hx
      first
      | exact absurd (by decide) hx
      | rfl
      | trivial
      | ((try unfold opResult) <;> (repeat' split) <;> rfl)
    · intro hx
      first
      | exact absurd hx (by decide)
      | rfl
      | trivial
      | ((try unfold opResult) <;> (repeat' split) <;> rfl)
    · intro hx
      first
      | (rcases hx with hx | hx <;> exact absurd hx (by decide))
      | ((try unfold opResult) <;> (repeat' split) <;> simp)
    · intro hx
      first
      | exact absurd hx (by decide)
      | ((repeat' split) <;>
          first
          | exact ⟨0, by decide, rfl⟩
          | exact ⟨_, by rw [List.length_take]; exact Nat.min_le_left _ _, rfl⟩)
  | false =>
    simp only [hc0, eq_self_iff_true, Bool.false_eq_true, if_true, if_false]
    cases hc1 : isAct (sAction st) "click" with
    | true =>
      simp only [hc1, eq_self_iff_true, Bool.false_eq_true, if_true, if_false]
      rw [isAct_eq _ _ _ ha] at hc1
      have hs := eq_of_beq hc1
      subst hs
      refine ⟨?_, ?_, ?_, ?_⟩
      · intro hx
        first
        | exact absurd (by decide) hx
        | rfl
        | trivial
        | ((try unfold opResult) <;> (repeat' split) <;> rfl)
      · intro hx
        first
        | exact absurd hx (by decide)
        | rfl
        | trivial
        | ((try unfold opResult) <;> (repeat' split) <;> rfl)
      · intro hx
        first
        | (rcases hx with hx | hx <;> exact absurd hx (by decide))
        | ((try unfold opResult) <;> (repeat' split) <;> simp)
      · intro hx
        first
        | exact absurd hx (by decide)
        | ((repeat' split) <;>
            first
            | exact ⟨0, by decide, rfl⟩
            | exact ⟨_, by rw [List.length_take]; exact Nat.min_le_left _ _, rfl⟩)
    | false =>
      simp only [hc1, eq_self_iff_true, Bool.false_eq_true, if_true, if_false]
      cases hc2 : isAct (sAction st) "fill" with
      | true =>
        simp only [hc2, eq_self_iff_true, Bool.false_eq_true, if_true, if_false]
        rw [isAct_eq _ _ _ ha] at hc2
        have hs := eq_of_beq hc2
        subst hs
        refine ⟨?_, ?_, ?_, ?_⟩
        · intro hx
          first
          | exact absurd (by decide) hx
          | rfl
          | trivial
          | ((try unfold opResult) <;> (repeat' split) <;> rfl)
        · intro hx
          first
          | exact absurd hx (by decide)
          | rfl
          | trivial
          | ((try unfold opResult) <;> (repeat' split) <;> rfl)
        · intro hx
          first
          | (rcases hx with hx | hx <;> exact absurd hx (by decide))
          | ((try unfold opResult) <;> (repeat' split) <;> simp)
        · intro hx
          first
          | exact absurd hx (by decide)
          | ((repeat' split) <;>
              first
              | exact ⟨0, by decide, rfl⟩
              | exact ⟨_, by rw [List.length_take]; exact Nat.min_le_left _ _, rfl⟩)
      | false =>
        simp only [hc2, eq_self_iff_true, Bool.false_eq_true, if_true, if_false]
        cases hc3 : isAct (sAction st) "type" with
        | true =>
          simp only [hc3, eq_self_iff_true, Bool.false_eq_true, if_true, if_false]
          rw [isAct_eq _ _ _ ha] at hc3
          have hs := eq_of_beq hc3
          subst hs
          refine ⟨?_, ?_, ?_, ?_⟩
          · intro hx
            first
            | exact absurd (by decide) hx
            | rfl
            | trivial
            | ((try unfold opResult) <;> (repeat' split) <;> rfl)
          · intro hx
            first
            | exact absurd hx (by decide)
            | rfl
            | trivial
            | ((try unfold opResult) <;> (repeat' split) <;> rfl)
          · intro hx
            first
            | (rcases hx with hx | hx <;> exact absurd hx (by decide))
            | ((try unfold opResult) <;> (repeat' split) <;> simp)
          · intro hx
            first
            | exact absurd hx (by decide)
            | ((repeat' split) <;>
                first
                | exact ⟨0, by decide, rfl⟩
                | exact ⟨_, by rw [List.length_take]; exact Nat.min_le_left _ _, rfl⟩)
        | false =>
          simp only [hc3, eq_self_iff_true, Bool.false_eq_true, if_true, if_false]
          cases hc4 : isAct (sAction st) "hover" with
          | true =>
            simp only [hc4, eq_self_iff_true, Bool.false_eq_true, if_true, if_false]
            rw [isAct_eq _ _ _ ha] at hc4
            have hs := eq_of_beq hc4
            subst hs
            refine ⟨?_, ?_, ?_, ?_⟩
            · intro hx
              first
              | exact absurd (by decide) hx
              | rfl
              | trivial
              | ((try unfold opResult) <;> (repeat' split) <;> rfl)
            · intro hx
              first
              | exact absurd hx (by decide)
              | rfl
              | trivial
              | ((try unfold opResult) <;> (repeat' split) <;> rfl)
            · intro hx
              first
              | (rcases hx with hx | hx <;> exact absurd hx (by decide))
              | ((try unfold opResult) <;> (repeat' split) <;> simp)
            · intro hx
              first
              | exact absurd hx (by decide)
              | ((repeat' split) <;>
                  first
                  | exact ⟨0, by decide, rfl⟩
                  | exact ⟨_, by rw [List.length_take]; exact Nat.min_le_left _ _, rfl⟩)
          | false =>
            simp only [hc4, eq_self_iff_true, Bool.false_eq_true, if_true, if_false]
            cases hc5 : isAct (sAction st) "press" with
            | true =>
              simp only [hc5, eq_self_iff_true, Bool.false_eq_true, if_true, if_false]
              rw [isAct_eq _ _ _ ha] at hc5
              have hs := eq_of_beq hc5
              subst hs
              refine ⟨?_, ?_, ?_, ?_⟩
              · intro hx
                first
                | exact absurd (by decide) hx
                | rfl
                | trivial
                | ((try unfold opResult) <;> (repeat' split) <;> rfl)
              · intro hx
                first
                | exact absurd hx (by decide)
                | rfl
                | trivial
                | ((try unfold opResult) <;> (repeat' split) <;> rfl)
              · intro hx
                first
                | (rcases hx with hx | hx <;> exact absurd hx (by decide))
                | ((try unfold opResult) <;> (repeat' split) <;> simp)
              · intro hx
                first
                | exact absurd hx (by decide)
                | ((repeat' split) <;>
                    first
                    | exact ⟨0, by decide, rfl⟩
                    | exact ⟨_, by rw [List.length_take]; exact Nat.min_le_left _ _, rfl⟩)
            | false =>
              simp only [hc5, eq_self_iff_true, Bool.false_eq_true, if_true, if_false]
              cases hc6 : isAct (sAction st) "select" with
              | true =>
                simp only [hc6, eq_self_iff_true, Bool.false_eq_true, if_true, if_false]
                rw [isAct_eq _ _ _ ha] at hc6
                have hs := eq_of_beq hc6
                subst hs
                refine ⟨?_, ?_, ?_, ?_⟩
                · intro hx
                  first
                  | exact absurd (by decide) hx
                  | rfl
                  | trivial
                  | ((try unfold opResult) <;> (repeat' split) <;> rfl)
                · intro hx
                  first
                  | exact absurd hx (by decide)
                  | rfl
                  | trivial
                  | ((try unfold opResult) <;> (repeat' split) <;> rfl)
                · intro hx
                  first
                  | (rcases hx with hx | hx <;> exact absurd hx (by decide))
                  | ((try unfold opResult) <;> (repeat' split) <;> simp)
                · intro hx
                  first
                  | exact absurd hx (by decide)
                  | ((repeat' split) <;>
                      first
                      | exact ⟨0, by decide, rfl⟩
                      | exact ⟨_, by rw [List.length_take]; exact Nat.min_le_left _ _, rfl⟩)
              | false =>
                simp only [hc6, eq_self_iff_true, Bool.false_eq_true, if_true, if_false]
                cases hc7 : isAct (sAction st) "check" with
                | true =>
                  simp only [hc7, eq_self_iff_true, Bool.false_eq_true, if_true, if_false]
                  rw [isAct_eq _ _ _ ha] at hc7
                  have hs := eq_of_beq hc7
                  subst hs
                  refine ⟨?_, ?_, ?_, ?_⟩
                  · intro hx
                    first
                    | exact absurd (by decide) hx
                    | rfl
                    | trivial
                    | ((try unfold opResult) <;> (repeat' split) <;> rfl)
                  · intro hx
                    first
                    | exact absurd hx (by decide)
                    | rfl
                    | trivial
                    | ((try unfold opResult) <;> (repeat' split) <;> rfl)
                  · intro hx
                    first
                    | (rcases hx with hx | hx <;> exact absurd hx (by decide))
                    | ((try unfold opResult) <;> (repeat' split) <;> simp)
                  · intro hx
                    first
                    | exact absurd hx (by decide)
                    | ((repeat' split) <;>
                        first
                        | exact ⟨0, by decide, rfl⟩
                        | exact ⟨_, by rw [List.length_take]; exact Nat.min_le_left _ _, rfl⟩)
                | false =>
                  simp only [hc7, eq_self_iff_true, Bool.false_eq_true, if_true, if_false]
                  cases hc8 : isAct (sAction st) "uncheck" with
                  | true =>
                    simp only [hc8, eq_self_iff_true, Bool.false_eq_true, if_true, if_false]
                    rw [isAct_eq _ _ _ ha] at hc8
                    have hs := eq_of_beq hc8
                    subst hs
                    refine ⟨?_, ?_, ?_, ?_⟩
                    · intro hx
                      first
                      | exact absurd (by decide) hx
                      | rfl
                      | trivial
                      | ((try unfold opResult) <;> (repeat' split) <;> rfl)
                    · intro hx
                      first
                      | exact absurd hx (by decide)
                      | rfl
                      | trivial
                      | ((try unfold opResult) <;> (repeat' split) <;> rfl)
                    · intro hx
                      first
                      | (rcases hx with hx | hx <;> exact absurd hx (by decide))
                      | ((try unfold opResult) <;> (repeat' split) <;> simp)
                    · intro hx
                      first
                      | exact absurd hx (by decide)
                      | ((repeat' split) <;>
                          first
                          | exact ⟨0, by decide, rfl⟩
                          | exact ⟨_, by rw [List.length_take]; exact Nat.min_le_left _ _, rfl⟩)
                  | false =>
                    simp only [hc8, eq_self_iff_true, Bool.false_eq_true, if_true, if_false]
                    cases hc9 : isAct (sAction st) "wait" with
                    | true =>
                      simp only [hc9, eq_self_iff_true, Bool.false_eq_true, if_true, if_false]
                      rw [isAct_eq _ _ _ ha] at hc9
                      have hs := eq_of_beq hc9
                      subst hs
                      refine ⟨?_, ?_, ?_, ?_⟩
                      · intro hx
                        first
                        | exact absurd (by decide) hx
                        | rfl
                        | trivial
                        | ((try unfold opResult) <;> (repeat' split) <;> rfl)
                      · intro hx
                        first
                        | exact absurd hx (by decide)
                        | rfl
                        | trivial
                        | ((try unfold opResult) <;> (repeat' split) <;> rfl)
                      · intro hx
                        first
                        | (rcases hx with hx | hx <;> exact absurd hx (by decide))
                        | ((try unfold opResult) <;> (repeat' split) <;> simp)
                      · intro hx
                        first
                        | exact absurd hx (by decide)
                        | ((repeat' split) <;>
                            first
                            | exact ⟨0, by decide, rfl⟩
                            | exact ⟨_, by rw [List.length_take]; exact Nat.min_le_left _ _, rfl⟩)
                    | false =>
                      simp only [hc9, eq_self_iff_true, Bool.false_eq_true, if_true, if_false]
                      cases hc10 : isAct (sAction st) "wait_selector" with
                      | true =>
                        simp only [hc10, eq_self_iff_true, Bool.false_eq_true, if_true, if_false]
                        rw [isAct_eq _ _ _ ha] at hc10
                        have hs := eq_of_beq hc10
                        subst hs
                        refine ⟨?_, ?_, ?_, ?_⟩
                        · intro hx
                          first
                          | exact absurd (by decide) hx
                          | rfl
                          | trivial
                          | ((try unfold opResult) <;> (repeat' split) <;> rfl)
                        · intro hx
                          first
                          | exact absurd hx (by decide)
                          | rfl
                          | trivial
                          | ((try unfold opResult) <;> (repeat' split) <;> rfl)
                        · intro hx
                          first
                          | (rcases hx with hx | hx <;> exact absurd hx (by decide))
                          | ((try unfold opResult) <;> (repeat' split) <;> simp)
                        · intro hx
                          first
                          | exact absurd hx (by decide)
                          | ((repeat' split) <;>
                              first
                              | exact ⟨0, by decide, rfl⟩
                              | exact ⟨_, by rw [List.length_take]; exact Nat.min_le_left _ _, rfl⟩)
                      | false =>
                        simp only [hc10, eq_self_iff_true, Bool.false_eq_true, if_true, if_false]
                        cases hc11 : isAct (sAction st) "wait_url" with
                        | true =>
                          simp only [hc11, eq_self_iff_true, Bool.false_eq_true, if_true, if_false]
                          rw [isAct_eq _ _ _ ha] at hc11
                          have hs := eq_of_beq hc11
                          subst hs
                          refine ⟨?_, ?_, ?_, ?_⟩
                          · intro hx
                            first
                            | exact absurd (by decide) hx
                            | rfl
                            | trivial
                            | ((try unfold opResult) <;> (repeat' split) <;> rfl)
                          · intro hx
                            first
                            | exact absurd hx (by decide)
                            | rfl
                            | trivial
                            | ((try unfold opResult) <;> (repeat' split) <;> rfl)
                          · intro hx
                            first
                            | (rcases hx with hx | hx <;> exact absurd hx (by decide))
                            | ((try unfold opResult) <;> (repeat' split) <;> simp)
                          · intro hx
                            first
                            | exact absurd hx (by decide)
                            | ((repeat' split) <;>
                                first
                                | exact ⟨0, by decide, rfl⟩
                                | exact ⟨_, by rw [List.length_take]; exact Nat.min_le_left _ _, rfl⟩)
                        | false =>
                          simp only [hc11, eq_self_iff_true, Bool.false_eq_true, if_true, if_false]
                          cases hc12 : isAct (sAction st) "get_text" with
                          | true =>
                            simp only [hc12, eq_self_iff_true, Bool.false_eq_true, if_true, if_false]
                            rw [isAct_eq _ _ _ ha] at hc12
                            have hs := eq_of_beq hc12
                            subst hs
                            refine ⟨?_, ?_, ?_, ?_⟩
                            · intro hx
                              first
                              | exact absurd (by decide) hx
                              | rfl
                              | trivial
                              | ((try unfold opResult) <;> (repeat' split) <;> rfl)
                            · intro hx
                              first
                              | exact absurd hx (by decide)
                              | rfl
                              | trivial
                              | ((try unfold opResult) <;> (repeat' split) <;> rfl)
                            · intro hx
                              first
                              | (rcases hx with hx | hx <;> exact absurd hx (by decide))
                              | ((try unfold opResult) <;> (repeat' split) <;> simp)
                            · intro hx
                              first
                              | exact absurd hx (by decide)
                              | ((repeat' split) <;>
                                  first
                                  | exact ⟨0, by decide, rfl⟩
                                  | exact ⟨_, by rw [List.length_take]; exact Nat.min_le_left _ _, rfl⟩)
                          | false =>
                            simp only [hc12, eq_self_iff_true, Bool.false_eq_true, if_true, if_false]
                            cases hc13 : isAct (sAction st) "get_attribute" with
                            | true =>
                              simp only [hc13, eq_self_iff_true, Bool.false_eq_true, if_true, if_false]
                              rw [isAct_eq _ _ _ ha] at hc13
                              have hs := eq_of_beq hc13
                              subst hs
                              refine ⟨?_, ?_, ?_, ?_⟩
                              · intro hx
                                first
                                | exact absurd (by decide) hx
                                | rfl
                                | trivial
                                | ((try unfold opResult) <;> (repeat' split) <;> rfl)
                              · intro hx
                                first
                                | exact absurd hx (by decide)
                                | rfl
                                | trivial
                                | ((try unfold opResult) <;> (repeat' split) <;> rfl)
                              · intro hx
                                first
                                | (rcases hx with hx | hx <;> exact absurd hx (by decide))
                                | ((try unfold opResult) <;> (repeat' split) <;> simp)
                              · intro hx
                                first
                                | exact absurd hx (by decide)
                                | ((repeat' split) <;>
                                    first
                                    | exact ⟨0, by decide, rfl⟩
                                    | exact ⟨_, by rw [List.length_take]; exact Nat.min_le_left _ _, rfl⟩)
                            | false =>
                              simp only [hc13, eq_self_iff_true, Bool.false_eq_true, if_true, if_false]
                              cases hc14 : isAct (sAction st) "get_value" with
                              | true =>
                                simp only [hc14, eq_self_iff_true, Bool.false_eq_true, if_true, if_false]
                                rw [isAct_eq _ _ _ ha] at hc14
                                have hs := eq_of_beq hc14
                                subst hs
                                refine ⟨?_, ?_, ?_, ?_⟩
                                · intro hx
                                  first
                                  | exact absurd (by decide) hx
                                  | rfl
                                  | trivial
                                  | ((try unfold opResult) <;> (repeat' split) <;> rfl)
                                · intro hx
                                  first
                                  | exact absurd hx (by decide)
                                  | rfl
                                  | trivial
                                  | ((try unfold opResult) <;> (repeat' split) <;> rfl)
                                · intro hx
                                  first
                                  | (rcases hx with hx | hx <;> exact absurd hx (by decide))
                                  | ((try unfold opResult) <;> (repeat' split) <;> simp)
                                · intro hx
                                  first
                                  | exact absurd hx (by decide)
                                  | ((repeat' split) <;>
                                      first
                                      | exact ⟨0, by decide, rfl⟩
                                      | exact ⟨_, by rw [List.length_take]; exact Nat.min_le_left _ _, rfl⟩)
                              | false =>
                                simp only [hc14, eq_self_iff_true, Bool.false_eq_true, if_true, if_false]
                                cases hc15 : isAct (sAction st) "list_elements" with
                                | true =>
                                  simp only [hc15, eq_self_iff_true, Bool.false_eq_true, if_true, if_false]
                                  rw [isAct_eq _ _ _ ha] at hc15
                                  have hs := eq_of_beq hc15
                                  subst hs
                                  refine ⟨?_, ?_, ?_, ?_⟩
                                  · intro hx
                                    first
                                    | exact absurd (by decide) hx
                                    | rfl
                                    | trivial
                                    | ((try unfold opResult) <;> (repeat' split) <;> rfl)
                                  · intro hx
                                    first
                                    | exact absurd hx (by decide)
                                    | rfl
                                    | trivial
                                    | ((try unfold opResult) <;> (repeat' split) <;> rfl)
                                  · intro hx
                                    first
                                    | (rcases hx with hx | hx <;> exact absurd hx (by decide))
                                    | ((try unfold opResult) <;> (repeat' split) <;> simp)
                                  · intro hx
                                    first
                                    | exact absurd hx (by decide)
                                    | ((repeat' split) <;>
                                        first
                                        | exact ⟨0, by decide, rfl⟩
                                        | exact ⟨_, by rw [List.length_take]; exact Nat.min_le_left _ _, rfl⟩)
                                | false =>
                                  simp only [hc15, eq_self_iff_true, Bool.false_eq_true, if_true, if_false]
                                  cases hc16 : isAct (sAction st) "evaluate" with
                                  | true =>
                                    simp only [hc16, eq_self_iff_true, Bool.false_eq_true, if_true, if_false]
                                    rw [isAct_eq _ _ _ ha] at hc16
                                    have hs := eq_of_beq hc16
                                    subst hs
                                    refine ⟨?_, ?_, ?_, ?_⟩
                                    · intro hx
                                      first
                                      | exact absurd (by decide) hx
                                      | rfl
                                      | trivial
                                      | ((try unfold opResult) <;> (repeat' split) <;> rfl)
                                    · intro hx
                                      first
                                      | exact absurd hx (by decide)
                                      | rfl
                                      | trivial
                                      | ((try unfold opResult) <;> (repeat' split) <;> rfl)
                                    · intro hx
                                      first
                                      | (rcases hx with hx | hx <;> exact absurd hx (by decide))
                                      | ((try unfold opResult) <;> (repeat' split) <;> simp)
                                    · intro hx
                                      first
                                      | exact absurd hx (by decide)
                                      | ((repeat' split) <;>
                                          first
                                          | exact ⟨0, by decide, rfl⟩
                                          | exact ⟨_, by rw [List.length_take]; exact Nat.min_le_left _ _, rfl⟩)
                                  | false =>
                                    simp only [hc16, eq_self_iff_true, Bool.false_eq_true, if_true, if_false]
                                    cases hc17 : isAct (sAction st) "go_back" with
                                    | true =>
                                      simp only [hc17, eq_self_iff_true, Bool.false_eq_true, if_true, if_false]
                                      rw [isAct_eq _ _ _ ha] at hc17
                                      have hs := eq_of_beq hc17
                                      subst hs
                                      refine ⟨?_, ?_, ?_, ?_⟩
                                      · intro hx
                                        first
                                        | exact absurd (by decide) hx
                                        | rfl
                                        | trivial
                                        | ((try unfold opResult) <;> (repeat' split) <;> rfl)
                                      · intro hx
                                        first
                                        | exact absurd hx (by decide)
                                        | rfl
                                        | trivial
                                        | ((try unfold opResult) <;> (repeat' split) <;> rfl)
                                      · intro hx
                                        first
                                        | (rcases hx with hx | hx <;> exact absurd hx (by decide))
                                        | ((try unfold opResult) <;> (repeat' split) <;> simp)
                                      · intro hx
                                        first
                                        | exact absurd hx (by decide)
                                        | ((repeat' split) <;>
                                            first
                                            | exact ⟨0, by decide, rfl⟩
                                            | exact ⟨_, by rw [List.length_take]; exact Nat.min_le_left _ _, rfl⟩)
                                    | false =>
                                      simp only [hc17, eq_self_iff_true, Bool.false_eq_true, if_true, if_false]
                                      cases hc18 : isAct (sAction st) "go_forward" with
                                      | true =>
                                        simp only [hc18, eq_self_iff_true, Bool.false_eq_true, if_true, if_false]
                                        rw [isAct_eq _ _ _ ha] at hc18
                                        have hs := eq_of_beq hc18
                                        subst hs
                                        refine ⟨?_, ?_, ?_, ?_⟩
                                        · intro hx
                                          first
                                          | exact absurd (by decide) hx
                                          | rfl
                                          | trivial
                                          | ((try unfold opResult) <;> (repeat' split) <;> rfl)
                                        · intro hx
                                          first
                                          | exact absurd hx (by decide)
                                          | rfl
                                          | trivial
                                          | ((try unfold opResult) <;> (repeat' split) <;> rfl)
                                        · intro hx
                                          first
                                          | (rcases hx with hx | hx <;> exact absurd hx (by decide))
                                          | ((try unfold opResult) <;> (repeat' split) <;> simp)
                                        · intro hx
                                          first
                                          | exact absurd hx (by decide)
                                          | ((repeat' split) <;>
                                              first
                                              | exact ⟨0, by decide, rfl⟩
                                              | exact ⟨_, by rw [List.length_take]; exact Nat.min_le_left _ _, rfl⟩)
                                      | false =>
                                        simp only [hc18, eq_self_iff_true, Bool.false_eq_true, if_true, if_false]
                                        cases hc19 : isAct (sAction st) "reload" with
                                        | true =>
                                          simp only [hc19, eq_self_iff_true, Bool.false_eq_true, if_true, if_false]
                                          rw [isAct_eq _ _ _ ha] at hc19
                                          have hs := eq_of_beq hc19
                                          subst hs
                                          refine ⟨?_, ?_, ?_, ?_⟩
                                          · intro hx
                                            first
                                            | exact absurd (by decide) hx
                                            | rfl
                                            | trivial
                                            | ((try unfold opResult) <;> (repeat' split) <;> rfl)
                                          · intro hx
                                            first
                                            | exact absurd hx (by decide)
                                            | rfl
                                            | trivial
                                            | ((try unfold opResult) <;> (repeat' split) <;> rfl)
                                          · intro hx
                                            first
                                            | (rcases hx with hx | hx <;> exact absurd hx (by decide))
                                            | ((try unfold opResult) <;> (repeat' split) <;> simp)
                                          · intro hx
                                            first
                                            | exact absurd hx (by decide)
                                            | ((repeat' split) <;>
                                                first
                                                | exact ⟨0, by decide, rfl⟩
                                                | exact ⟨_, by rw [List.length_take]; exact Nat.min_le_left _ _, rfl⟩)
                                        | false =>
                                          simp only [hc19, eq_self_iff_true, Bool.false_eq_true, if_true, if_false]
                                          cases hc20 : isAct (sAction st) "scroll" with
                                          | true =>
                                            simp only [hc20, eq_self_iff_true, Bool.false_eq_true, if_true, if_false]
                                            rw [isAct_eq _ _ _ ha] at hc20
                                            have hs := eq_of_beq hc20
                                            subst hs
                                            refine ⟨?_, ?_, ?_, ?_⟩
                                            · intro hx
                                              first
                                              | exact absurd (by decide) hx
                                              | rfl
                                              | trivial
                                              | ((try unfold opResult) <;> (repeat' split) <;> rfl)
                                            · intro hx
                                              first
                                              | exact absurd hx (by decide)
                                              | rfl
                                              | trivial
                                              | ((try unfold opResult) <;> (repeat' split) <;> rfl)
                                            · intro hx
                                              first
                                              | (rcases hx with hx | hx <;> exact absurd hx (by decide))
                                              | ((try unfold opResult) <;> (repeat' split) <;> simp)
                                            · intro hx
                                              first
                                              | exact absurd hx (by decide)
                                              | ((repeat' split) <;>
                                                  first
                                                  | exact ⟨0, by decide, rfl⟩
                                                  | exact ⟨_, by rw [List.length_take]; exact Nat.min_le_left _ _, rfl⟩)
                                          | false =>
                                            simp only [hc20, eq_self_iff_true, Bool.false_eq_true, if_true, if_false]
                                            cases hc21 : isAct (sAction st) "focus" with
                                            | true =>
                                              simp only [hc21, eq_self_iff_true, Bool.false_eq_true, if_true, if_false]
                                              rw [isAct_eq _ _ _ ha] at hc21
                                              have hs := eq_of_beq hc21
                                              subst hs
                                              refine ⟨?_, ?_, ?_, ?_⟩
                                              · intro hx
                                                first
                                                | exact absurd (by decide) hx
                                                | rfl
                                                | trivial
                                                | ((try unfold opResult) <;> (repeat' split) <;> rfl)
                                              · intro hx
                                                first
                                                | exact absurd hx (by decide)
                                                | rfl
                                                | trivial
                                                | ((try unfold opResult) <;> (repeat' split) <;> rfl)
                                              · intro hx
                                                first
                                                | (rcases hx with hx | hx <;> exact absurd hx (by decide))
                                                | ((try unfold opResult) <;> (repeat' split) <;> simp)
                                              · intro hx
                                                first
                                                | exact absurd hx (by decide)
                                                | ((repeat' split) <;>
                                                    first
                                                    | exact ⟨0, by decide, rfl⟩
                                                    | exact ⟨_, by rw [List.length_take]; exact Nat.min_le_left _ _, rfl⟩)
                                            | false =>
                                              simp only [hc21, eq_self_iff_true, Bool.false_eq_true, if_true, if_false]
                                              cases hc22 : isAct (sAction st) "blur" with
                                              | true =>
                                                simp only [hc22, eq_self_iff_true, Bool.false_eq_true, if_true, if_false]
                                                rw [isAct_eq _ _ _ ha] at hc22
                                                have hs := eq_of_beq hc22
                                                subst hs
                                                refine ⟨?_, ?_, ?_, ?_⟩
                                                · intro hx
                                                  first
                                                  | exact absurd (by decide) hx
                                                  | rfl
                                                  | trivial
                                                  | ((try unfold opResult) <;> (repeat' split) <;> rfl)
                                                · intro hx
                                                  first
                                                  | exact absurd hx (by decide)
                                                  | rfl
                                                  | trivial
                                                  | ((try unfold opResult) <;> (repeat' split) <;> rfl)
                                                · intro hx
                                                  first
                                                  | (rcases hx with hx | hx <;> exact absurd hx (by decide))
                                                  | ((try unfold opResult) <;> (repeat' split) <;> simp)
                                                · intro hx
                                                  first
                                                  | exact absurd hx (by decide)
                                                  | ((repeat' split) <;>
                                                      first
                                                      | exact ⟨0, by decide, rfl⟩
                                                      | exact ⟨_, by rw [List.length_take]; exact Nat.min_le_left _ _, rfl⟩)
                                              | false =>
                                                simp only [hc22, eq_self_iff_true, Bool.false_eq_true, if_true, if_false]
                                                cases hc23 : isAct (sAction st) "drag" with
                                                | true =>
                                                  simp only [hc23, eq_self_iff_true, Bool.false_eq_true, if_true, if_false]
                                                  rw [isAct_eq _ _ _ ha] at hc23
                                                  have hs := eq_of_beq hc23
                                                  subst hs
                                                  refine ⟨?_, ?_, ?_, ?_⟩
                                                  · intro hx
                                                    first
                                                    | exact absurd (by decide) hx
                                                    | rfl
                                                    | trivial
                                                    | ((try unfold opResult) <;> (repeat' split) <;> rfl)
                                                  · intro hx
                                                    first
                                                    | exact absurd hx (by decide)
                                                    | rfl
                                                    | trivial
                                                    | ((try unfold opResult) <;> (repeat' split) <;> rfl)
                                                  · intro hx
                                                    first
                                                    | (rcases hx with hx | hx <;> exact absurd hx (by decide))
                                                    | ((try unfold opResult) <;> (repeat' split) <;> simp)
                                                  · intro hx
                                                    first
                                                    | exact absurd hx (by decide)
                                                    | ((repeat' split) <;>
                                                        first
                                                        | exact ⟨0, by decide, rfl⟩
                                                        | exact ⟨_, by rw [List.length_take]; exact Nat.min_le_left _ _, rfl⟩)
                                                | false =>
                                                  simp only [hc23, eq_self_iff_true, Bool.false_eq_true, if_true, if_false]
                                                  cases hc24 : isAct (sAction st) "upload_file" with
                                                  | true =>
                                                    simp only [hc24, eq_self_iff_true, Bool.false_eq_true, if_true, if_false]
                                                    rw [isAct_eq _ _ _ ha] at hc24
                                                    have hs := eq_of_beq hc24
                                                    subst hs
                                                    refine ⟨?_, ?_, ?_, ?_⟩
                                                    · intro hx
                                                      first
                                                      | exact absurd (by decide) hx
                                                      | rfl
                                                      | trivial
                                                      | ((try unfold opResult) <;> (repeat' split) <;> rfl)
                                                    · intro hx
                                                      first
                                                      | exact absurd hx (by decide)
                                                      | rfl
                                                      | trivial
                                                      | ((try unfold opResult) <;> (repeat' split) <;> rfl)
                                                    · intro hx
                                                      first
                                                      | (rcases hx with hx | hx <;> exact absurd hx (by decide))
                                                      | ((try unfold opResult) <;> (repeat' split) <;> simp)
                                                    · intro hx
                                                      first
                                                      | exact absurd hx (by decide)
                                                      | ((repeat' split) <;>
                                                          first
                                                          | exact ⟨0, by decide, rfl⟩
                                                          | exact ⟨_, by rw [List.length_take]; exact Nat.min_le_left _ _, rfl⟩)
                                                  | false =>
                                                    simp only [hc24, eq_self_iff_true, Bool.false_eq_true, if_true, if_false]
                                                    cases hc25 : isAct (sAction st) "get_url" with
                                                    | true =>
                                                      simp only [hc25, eq_self_iff_true, Bool.false_eq_true, if_true, if_false]
                                                      rw [isAct_eq _ _ _ ha] at hc25
                                                      have hs := eq_of_beq hc25
                                                      subst hs
                                                      refine ⟨?_, ?_, ?_, ?_⟩
                                                      · intro hx
                                                        first
                                                        | exact absurd (by decide) hx
                                                        | rfl
                                                        | trivial
                                                        | ((try unfold opResult) <;> (repeat' split) <;> rfl)
                                                      · intro hx
                                                        first
                                                        | exact absurd hx (by decide)
                                                        | rfl
                                                        | trivial
                                                        | ((try unfold opResult) <;> (repeat' split) <;> rfl)
                                                      · intro hx
                                                        first
                                                        | (rcases hx with hx | hx <;> exact absurd hx (by decide))
                                                        | ((try unfold opResult) <;> (repeat' split) <;> simp)
                                                      · intro hx
                                                        first
                                                        | exact absurd hx (by decide)
                                                        | ((repeat' split) <;>
                                                            first
                                                            | exact ⟨0, by decide, rfl⟩
                                                            | exact ⟨_, by rw [List.length_take]; exact Nat.min_le_left _ _, rfl⟩)
                                                    | false =>
                                                      simp only [hc25, eq_self_iff_true, Bool.false_eq_true, if_true, if_false]
                                                      cases hc26 : isAct (sAction st) "get_title" with
                                                      | true =>
                                                        simp only [hc26, eq_self_iff_true, Bool.false_eq_true, if_true, if_false]
                                                        rw [isAct_eq _ _ _ ha] at hc26
                                                        have hs := eq_of_beq hc26
                                                        subst hs
                                                        refine ⟨?_, ?_, ?_, ?_⟩
                                                        · intro hx
                                                          first
                                                          | exact absurd (by decide) hx
                                                          | rfl
                                                          | trivial
                                                          | ((try unfold opResult) <;> (repeat' split) <;> rfl)
                                                        · intro hx
                                                          first
                                                          | exact absurd hx (by decide)
                                                          | rfl
                                                          | trivial
                                                          | ((try unfold opResult) <;> (repeat' split) <;> rfl)
                                                        · intro hx
                                                          first
                                                          | (rcases hx with hx | hx <;> exact absurd hx (by decide))
                                                          | ((try unfold opResult) <;> (repeat' split) <;> simp)
                                                        · intro hx
                                                          first
                                                          | exact absurd hx (by decide)
                                                          | ((repeat' split) <;>
                                                              first
                                                              | exact ⟨0, by decide, rfl⟩
                                                              | exact ⟨_, by rw [List.length_take]; exact Nat.min_le_left _ _, rfl⟩)
                                                      | false =>
                                                        simp only [hc26, eq_self_iff_true, Bool.false_eq_true, if_true, if_false]
                                                        fin_cases hrec <;> simp_all [isAct_eq _ _ _ ha]

/-- A list_elements step. -/
def stListE : JObj := [("action", .jstr "list_elements"), ("selector", .jstr ".item")]

/-- C4 counterexample: `list_elements` is a recognized action, yet on a
page with one matching element its step invokes two library operations
(the locator enumeration and one `inner_text`), not exactly one. -/
theorem C4_counterexample :
    isRecognized (sAction stListE) = true ∧
      (runStep okPage "." 0 stListE).2.length = 2 := by
  constructor
  · rfl
  · rfl

/-- C4 amended: a recognized step invokes exactly one library operation,
except: `list_elements` invokes one enumeration plus one `inner_text` per
listed element (at most 50); `get_url` invokes none (it reads the
`page.url` attribute); `wait` and `screenshot` invoke at most one (their
argument conversion may raise before the call). -/
theorem C4_amended_one_operation_per_step
    (pg : Page) (d : String) (i : Nat) (st : JObj) (s : String)
    (ha : actionStr (sAction st) = some s) (hrec : s ∈ recognizedActions) :
    (s ∉ (["list_elements", "get_url", "wait", "screenshot"] : List String) →
        (runStep pg d i st).2.length = 1) ∧
      (s = "get_url" → (runStep pg d i st).2 = []) ∧
      ((s = "wait" ∨ s = "screenshot") → (runStep pg d i st).2.length ≤ 1) ∧
      (s = "list_elements" → ∃ k, k ≤ 50 ∧ (runStep pg d i st).2 =
        .opLocatorAll :: (List.range k).map .opElemText) := by
  simp only [runStep_trace]
  exact stepBody_trace_len pg d i st s ha hrec

/-- Witness for the amended C4 at a concrete click step. -/
theorem C4_witness :
    (("click" : String) ∉ (["list_elements", "get_url", "wait", "screenshot"] : List String) →
        (runStep okPage "." 0 stClick).2.length = 1) ∧
      (("click" : String) = "get_url" → (runStep okPage "." 0 stClick).2 = []) ∧
      ((("click" : String) = "wait" ∨ ("click" : String) = "screenshot") →
        (runStep okPage "." 0 stClick).2.length ≤ 1) ∧
      (("click" : String) = "list_elements" → ∃ k, k ≤ 50 ∧
        (runStep okPage "." 0 stClick).2 =
          .opLocatorAll :: (List.range k).map .opElemText) :=
  C4_amended_one_operation_per_step okPage "." 0 stClick "click" rfl (by decide)

/-- Python slicing `s[:n]` yields at most `n` characters. -/
lemma pyTake_length_le (n : Nat) (s : String) : (pyTake n s).length ≤ n := by
  show (s.data.take n).length ≤ n
  rw [List.length_take]
  exact Nat.min_le_left _ _

/-- Stripping whitespace never lengthens a string. -/
lemma pyStrip_length_le (s : String) : (pyStrip s).length ≤ s.length := by
  show (((s.data.dropWhile Char.isWhitespace).reverse.dropWhile
    Char.isWhitespace).reverse).length ≤ s.data.length
  rw [List.length_reverse]
  calc ((s.data.dropWhile Char.isWhitespace).reverse.dropWhile
          Char.isWhitespace).length
      ≤ (s.data.dropWhile Char.isWhitespace).reverse.length :=
        (List.dropWhile_sublist _).length_le
    _ = (s.data.dropWhile Char.isWhitespace).length := List.length_reverse _
    _ ≤ s.data.length := (List.dropWhile_sublist _).length_le

/-- Computation rule for `pyGet` on a nonempty record. -/
lemma pyGet_cons (k : String) (v : JVal) (rest : JObj) (key : String) :
    pyGet ((k, v) :: rest) key = if (k == key) = true then some v else pyGet rest key := by
  unfold pyGet
  cases h : (k == key) with
  | true =>
    rw [List.find?_cons_of_pos rest
      (show ((fun kv : String × JVal => kv.1 == key) (k, v)) = true from h)]
    simp [h]
  | false =>
    rw [List.find?_cons_of_neg rest
      (show ¬ ((fun kv : String × JVal => kv.1 == key) (k, v)) = true from by simp [h])]
    simp [h]

/-- C10: recorded outputs are bounded — a successful `get_text` record
stores at most 1000 characters of text, a successful `evaluate` record at
most 1000 characters of stringified result, and a successful
`list_elements` record stores at most 50 texts of at most 200 characters
each while its `count` field is the full number of matched elements. -/
theorem C10_bounded_outputs (pg : Page) (d : String) (i : Nat) (st : JObj) (r : JObj) :
    (actionStr (sAction st) = some "get_text" → (stepBody pg d i st).1 = .ok r →
        ∃ t, pyGet r "text" = some (.jstr t) ∧ t.length ≤ 1000) ∧
      (actionStr (sAction st) = some "evaluate" → (stepBody pg d i st).1 = .ok r →
        ∃ t, pyGet r "result" = some (.jstr t) ∧ t.length ≤ 1000) ∧
      (actionStr (sAction st) = some "list_elements" → (stepBody pg d i st).1 = .ok r →
        ∃ els, pg.locator_all (sSelector st) = .ok els ∧
          pyGet r "count" = some (.jnum (Int.ofNat els.length)) ∧
          ∃ texts, pyGet r "texts" = some (.jarr texts) ∧ texts.length ≤ 50 ∧
            ∀ v ∈ texts, ∃ t, v = JVal.jstr t ∧ t.length ≤ 200) := by
  refine ⟨?_, ?_, ?_⟩
  · intro ha hok
    unfold stepBody at hok
    simp only [isAct_eq _ _ _ ha, String.reduceBEq, Bool.false_eq_true, if_false,
      eq_self_iff_true, if_true] at hok
    rcases hins : pg.first_inner_text (sSelector st) with e | text <;> rw [hins] at hok
    · exact absurd hok (by simp)
    · injection hok with hok
      subst hok
      refine ⟨pyTake 1000 text, ?_, pyTake_length_le 1000 text⟩
      simp [mkStepRec, pyGet_cons]
  · intro ha hok
    unfold stepBody at hok
    simp only [isAct_eq _ _ _ ha, String.reduceBEq, Bool.false_eq_true, if_false,
      eq_self_iff_true, if_true] at hok
    rcases hins : pg.evaluate (sValue st) with e | result <;> rw [hins] at hok
    · exact absurd hok (by simp)
    · injection hok with hok
      subst hok
      refine ⟨pyTake 1000 (pyStr result), ?_, pyTake_length_le 1000 (pyStr result)⟩
      simp [mkStepRec, pyGet_cons]
  · intro ha hok
    unfold stepBody at hok
    simp only [isAct_eq _ _ _ ha, String.reduceBEq, Bool.false_eq_true, if_false,
      eq_self_iff_true, if_true] at hok
    rcases hins : pg.locator_all (sSelector st) with e | els <;> rw [hins] at hok
    · exact absurd hok (by simp)
    · injection hok with hok
      subst hok
      refine ⟨els, rfl, ?_, ?_⟩
      · simp [mkStepRec, pyGet_cons]
      · refine ⟨(els.take 50).map (fun el =>
            match el.innerText with
            | .ok t => JVal.jstr (pyStrip (pyTake 200 t))
            | .error _ => JVal.jstr "[no text]"), by simp [mkStepRec, pyGet_cons], ?_, ?_⟩
        · rw [List.length_map, List.length_take]
          exact Nat.min_le_left _ _
        · intro v hv
          rcases List.mem_map.mp hv with ⟨el, _, hfe⟩
          rcases h2 : el.innerText with e2 | t2 <;> rw [h2] at hfe
          · exact ⟨"[no text]", hfe.symm, by decide⟩
          · refine ⟨pyStrip (pyTake 200 t2), hfe.symm, ?_⟩
            exact le_trans (pyStrip_length_le _) (pyTake_length_le 200 t2)

/-- A get_text step. -/
def stGetText : JObj := [("action", .jstr "get_text"), ("selector", .jstr "#t")]

/-- Witness for C10 at a concrete successful get_text step. -/
theorem C10_witness :
    ∃ t, pyGet (mkStepRec 0 (sAction stGetText)
        [("status", .jstr "ok"), ("selector", jOpt (sSelector stGetText)),
         ("text", .jstr (pyTake 1000 "hello"))]) "text" =
      some (.jstr t) ∧ t.length ≤ 1000 :=
  (C10_bounded_outputs okPage "." 0 stGetText
    (mkStepRec 0 (sAction stGetText)
      [("status", .jstr "ok"), ("selector", jOpt (sSelector stGetText)),
       ("text", .jstr (pyTake 1000 "hello"))])).1 rfl rfl

/-- The first four entries of `fetch_kwargs` are fixed; the optional
entries are appended after them. -/
lemma baseKwargs_eq (config : JObj) :
    ∃ tail, baseKwargs config =
      ("headless", KwVal.jval (pyGetD config "headless" (.jbool true))) ::
      ("page_action", KwVal.cb) ::
      ("timeout", KwVal.jval (pyGetD config "timeout" (.jnum 45000))) ::
      ("network_idle", KwVal.jval (pyGetD config "networkIdle" (.jbool true))) :: tail :=
  ⟨_, rfl⟩

/-- The pages on which the chosen fetcher invokes the `page_action`
callback: only the `stealthy-fetch` and `fetch` branches hand the callback
to the library. -/
def visitedPages (config : JObj) (lib : Scrapling) : List Page :=
  match pyGet config "url" with
  | none => []
  | some url =>
    if pyEqStr (pyGetD config "method" (.jstr "stealthy-fetch")) "stealthy-fetch" then
      (lib.stealthyFetch url (stealthyKwargs config)).1
    else if pyEqStr (pyGetD config "method" (.jstr "stealthy-fetch")) "fetch" then
      (lib.dynamicFetch url (baseKwargs config)).1
    else []

/-- A response whose `url` attribute is present. -/
def respOK : Response := { urlAttr := some "http://final/", status := .jnum 200 }

/-- A library on which every fetch succeeds and invokes the callback on
exactly one page. -/
def libOK : Scrapling where
  stealthyFetch := fun _ _ => ([okPage], .ok respOK)
  dynamicFetch := fun _ _ => ([okPage], .ok respOK)
  fetcherGet := fun _ _ => .ok respOK

/-- A config choosing the plain `get` method with one action supplied. -/
def cfgGet : JObj :=
  [("url", .jstr "http://x/"), ("actions", .jarr [.jobj stClick]),
   ("method", .jstr "get")]

/-- A config using the default `stealthy-fetch` method with one action. -/
def cfgSteal : JObj :=
  [("url", .jstr "http://x/"), ("actions", .jarr [.jobj stGetUrl])]

/-- C9: when the configured method is neither `stealthy-fetch` nor
`fetch`, the kwargs passed to `Fetcher.get` contain no `page_action` and
no `network_idle` key, their `timeout` is the configured timeout floor
divided by 1000, and — the callback never being handed to the library —
the `actions` list of a successful result is empty regardless of the
actions supplied. -/
theorem C9_get_branch_strips_kwargs (config : JObj)
    (hm1 : pyEqStr (pyGetD config "method" (.jstr "stealthy-fetch")) "stealthy-fetch" = false)
    (hm2 : pyEqStr (pyGetD config "method" (.jstr "stealthy-fetch")) "fetch" = false) :
    (∀ kw, getKwargs config = .ok kw →
        kw.find? (fun kv => kv.1 == "page_action") = none ∧
        kw.find? (fun kv => kv.1 == "network_idle") = none ∧
        ∀ n, pyGetD config "timeout" (.jnum 45000) = .jnum n →
          kw.find? (fun kv => kv.1 == "timeout") =
            some ("timeout", KwVal.jval (.jnum (Int.fdiv n 1000)))) ∧
      ∀ lib r, execute (.jobj config) lib = .ok r →
        pyGet r "actions" = some (.jarr []) := by
  constructor
  · intro kw hkw
    unfold getKwargs at hkw
    rcases hdiv : pyFloorDiv1000 (pyGetD config "timeout" (.jnum 45000)) with e | t <;>
      rw [hdiv] at hkw
    · exact absurd hkw (by simp)
    · injection hkw with hkw
      subst hkw
      refine ⟨?_, ?_, ?_⟩
      · rw [List.find?_eq_none]
        intro x hx
        rcases List.mem_map.mp hx with ⟨y, hy, hxy⟩
        have hy1 : (y.1 != "page_action") = true :=
          (List.mem_filter.mp (List.mem_filter.mp hy).1).2
        have hx1 : x.1 = y.1 := by
          subst hxy
          split <;> rfl
        simp only [bne_iff_ne, ne_eq] at hy1
        simp [hx1, hy1]
      · rw [List.find?_eq_none]
        intro x hx
        rcases List.mem_map.mp hx with ⟨y, hy, hxy⟩
        have hy1 : (y.1 != "network_idle") = true := (List.mem_filter.mp hy).2
        have hx1 : x.1 = y.1 := by
          subst hxy
          split <;> rfl
        simp only [bne_iff_ne, ne_eq] at hy1
        simp [hx1, hy1]
      · intro n hn
        rw [hn] at hdiv
        injection hdiv with hdiv
        rcases baseKwargs_eq config with ⟨tail, hbase⟩
        rw [hbase, hn]
        simp [List.filter, List.find?, ← hdiv]
  · intro lib r hok
    simp only [execute] at hok
    rcases hurl : pyGet config "url" with _ | url <;> rw [hurl] at hok
    · exact absurd hok (by simp)
    · rcases hout : pyGetD config "outputDir" (.jstr ".") with _ | b | n | od | a | o <;>
        rw [hout] at hok <;> try exact Except.noConfusion hok
      rcases hsteps : asSteps (pyGetD config "actions" (.jarr [])) with _ | steps <;>
        rw [hsteps] at hok
      · exact absurd hok (by simp)
      · simp only [hm1, hm2, Bool.false_eq_true, if_false] at hok
        rcases hkw : getKwargs config with e | kw <;> rw [hkw] at hok <;>
          dsimp only at hok
        · exact absurd hok (by simp)
        · rcases hresp : lib.fetcherGet url kw with e | resp <;> rw [hresp] at hok
          · exact absurd hok (by simp)
          · injection hok with hok
            subst hok
            simp [resultObj, pyGet_cons]

/-- Witness for C9 at a concrete config with method `get`. -/
theorem C9_witness :
    pyGet (resultObj (.jstr "http://x/") (.jstr "get") respOK []) "actions" =
      some (.jarr []) :=
  (C9_get_branch_strips_kwargs cfgGet rfl rfl).2 libOK
    (resultObj (.jstr "http://x/") (.jstr "get") respOK []) rfl

/-- C2 counterexample: with method `get` and one supplied action, execute
succeeds yet the result's `actions` list is empty — not one record per
input action. -/
theorem C2_counterexample :
    execute (.jobj cfgGet) libOK =
        .ok (resultObj (.jstr "http://x/") (.jstr "get") respOK []) ∧
      pyGet (resultObj (.jstr "http://x/") (.jstr "get") respOK []) "actions" =
        some (.jarr []) ∧
      pyGetD cfgGet "actions" (.jarr []) = .jarr [.jobj stClick] := by
  refine ⟨rfl, ?_, rfl⟩
  simp [resultObj, pyGet_cons]

/-- C2 amended: for a config whose method is `stealthy-fetch` or `fetch`,
when the fetcher invokes the `page_action` callback exactly once and
execute succeeds, the result carries the requested `url`, a `finalUrl`, the
fetch `status`, the `method`, and under `actions` exactly one record per
supplied action step. -/
theorem C2_amended_result_object (config : JObj) (lib : Scrapling)
    (url : JVal) (steps : List JObj) (r : JObj)
    (hurl : pyGet config "url" = some url)
    (hsteps : asSteps (pyGetD config "actions" (.jarr [])) = some steps)
    (hm : pyEqStr (pyGetD config "method" (.jstr "stealthy-fetch")) "stealthy-fetch" = true ∨
      (pyEqStr (pyGetD config "method" (.jstr "stealthy-fetch")) "stealthy-fetch" = false ∧
        pyEqStr (pyGetD config "method" (.jstr "stealthy-fetch")) "fetch" = true))
    (honce : (visitedPages config lib).length = 1)
    (hok : execute (.jobj config) lib = .ok r) :
    pyGet r "url" = some url ∧
      (∃ v, pyGet r "finalUrl" = some v) ∧
      (∃ v, pyGet r "status" = some v) ∧
      pyGet r "method" = some (pyGetD config "method" (.jstr "stealthy-fetch")) ∧
      ∃ acts, pyGet r "actions" = some (.jarr acts) ∧ acts.length = steps.length := by
  simp only [execute] at hok
  rw [hurl] at hok
  rcases hout : pyGetD config "outputDir" (.jstr ".") with _ | b | n | od | a | o <;>
    rw [hout] at hok <;> try exact Except.noConfusion hok
  rw [hsteps] at hok
  unfold visitedPages at honce
  rw [hurl] at honce
  rcases hm with hm | ⟨hm1, hm2⟩
  · simp only [hm, if_true] at hok honce
    rcases hfetch : lib.stealthyFetch url (stealthyKwargs config) with ⟨pages, outcome⟩
    rw [hfetch] at hok honce
    cases outcome with
    | error e => exact absurd hok (by simp)
    | ok resp =>
      injection hok with hok
      subst hok
      simp only at honce
      rcases List.length_eq_one.mp honce with ⟨pg, hpg⟩
      refine ⟨by simp [resultObj, pyGet_cons], ?_, ?_, ?_, ?_⟩
      · rcases hresp : resp.urlAttr with _ | u
        · exact ⟨url, by simp [resultObj, pyGet_cons, hresp]⟩
        · exact ⟨.jstr u, by simp [resultObj, pyGet_cons, hresp]⟩
      · exact ⟨resp.status, by simp [resultObj, pyGet_cons]⟩
      · simp [resultObj, pyGet_cons]
      · refine ⟨(passResults pages od steps).map JVal.jobj,
          by simp [resultObj, pyGet_cons], ?_⟩
        rw [List.length_map, hpg, passResults]
        simp [pageActionResults, runStepsFrom_length]
  · simp only [hm1, hm2, Bool.false_eq_true, if_false, if_true] at hok honce
    rcases hfetch : lib.dynamicFetch url (baseKwargs config) with ⟨pages, outcome⟩
    rw [hfetch] at hok honce
    cases outcome with
    | error e => exact absurd hok (by simp)
    | ok resp =>
      injection hok with hok
      subst hok
      simp only at honce
      rcases List.length_eq_one.mp honce with ⟨pg, hpg⟩
      refine ⟨by simp [resultObj, pyGet_cons], ?_, ?_, ?_, ?_⟩
      · rcases hresp : resp.urlAttr with _ | u
        · exact ⟨url, by simp [resultObj, pyGet_cons, hresp]⟩
        · exact ⟨.jstr u, by simp [resultObj, pyGet_cons, hresp]⟩
      · exact ⟨resp.status, by simp [resultObj, pyGet_cons]⟩
      · simp [resultObj, pyGet_cons]
      · refine ⟨(passResults pages od steps).map JVal.jobj,
          by simp [resultObj, pyGet_cons], ?_⟩
        rw [List.length_map, hpg, passResults]
        simp [pageActionResults, runStepsFrom_length]

/-- Witness for the amended C2 at a concrete stealthy-fetch config. -/
theorem C2_witness :
    pyGet (resultObj (.jstr "http://x/") (.jstr "stealthy-fetch") respOK
        (passResults [okPage] "." [stGetUrl])) "url" = some (.jstr "http://x/") ∧
      (∃ v, pyGet (resultObj (.jstr "http://x/") (.jstr "stealthy-fetch") respOK
        (passResults [okPage] "." [stGetUrl])) "finalUrl" = some v) ∧
      (∃ v, pyGet (resultObj (.jstr "http://x/") (.jstr "stealthy-fetch") respOK
        (passResults [okPage] "." [stGetUrl])) "status" = some v) ∧
      pyGet (resultObj (.jstr "http://x/") (.jstr "stealthy-fetch") respOK
        (passResults [okPage] "." [stGetUrl])) "method" =
        some (pyGetD cfgSteal "method" (.jstr "stealthy-fetch")) ∧
      ∃ acts, pyGet (resultObj (.jstr "http://x/") (.jstr "stealthy-fetch") respOK
        (passResults [okPage] "." [stGetUrl])) "actions" = some (.jarr acts) ∧
        acts.length = [stGetUrl].length :=
  C2_amended_result_object cfgSteal libOK (.jstr "http://x/") [stGetUrl]
    (resultObj (.jstr "http://x/") (.jstr "stealthy-fetch") respOK
      (passResults [okPage] "." [stGetUrl]))
    rfl rfl (Or.inl rfl) rfl rfl

/-- An environment with readable stdin, files and parser, over `libOK`. -/
def envOK : Env where
  stdinJson := .ok (.jobj cfgSteal)
  fileJson := fun _ => .ok (.jobj cfgSteal)
  parseJson := fun _ => .ok (.jarr [])
  lib := libOK

/-- Arguments giving `--config` an empty string and nothing else. -/
def argsEmptyConfig : Args := { config := some "" }

/-- C5 counterexample: with `--config ''` given (and no `--stdin`, no
`--url`), the script does not read the named file — whose config here
would execute successfully with exit status 0 — but prints help and exits
with status 1: `elif args.config:` treats the given empty string as
falsy. -/
theorem C5_counterexample :
    argsEmptyConfig.config = some "" ∧ argsEmptyConfig.stdin = false ∧
      argsEmptyConfig.url = none ∧
      (runAndPrint envOK (.jobj cfgSteal)).exitCode = 0 ∧
      mainRun envOK argsEmptyConfig = helpResult :=
  ⟨rfl, rfl, rfl, rfl, rfl⟩

/-- C5 amended: the configuration is taken from exactly one of three
sources with fixed precedence — `--stdin` first; otherwise a non-empty
`--config` path, read as a JSON file; otherwise a non-empty `--url`, with
the config built from the CLI flags; otherwise help is printed and the
process exits with status 1. -/
theorem C5_amended_config_precedence (env : Env) (args : Args) :
    (args.stdin = true → mainRun env args =
      (match env.stdinJson with
       | .error e => uncaughtResult e
       | .ok cfg => runAndPrint env cfg)) ∧
      (args.stdin = false → optStrTruthy args.config = true →
        mainRun env args =
        (match env.fileJson (args.config.getD "") with
         | .error e => uncaughtResult e
         | .ok cfg => runAndPrint env cfg)) ∧
      (args.stdin = false → optStrTruthy args.config = false →
        optStrTruthy args.url = true →
        mainRun env args =
        (match (if optStrTruthy args.actions then env.parseJson (args.actions.getD "")
                else .ok (.jarr [])) with
         | .error e => uncaughtResult e
         | .ok acts => runAndPrint env (.jobj (flagsConfig args acts)))) ∧
      (args.stdin = false → optStrTruthy args.config = false →
        optStrTruthy args.url = false →
        mainRun env args = helpResult) := by
  refine ⟨?_, ?_, ?_, ?_⟩
  · intro h1
    unfold mainRun
    simp only [h1, if_true]
  · intro h1 h2
    unfold mainRun
    simp only [h1, h2, Bool.false_eq_true, if_false, if_true]
  · intro h1 h2 h3
    unfold mainRun
    simp only [h1, h2, h3, Bool.false_eq_true, if_false, if_true]
  · intro h1 h2 h3
    unfold mainRun
    simp only [h1, h2, h3, Bool.false_eq_true, if_false]

/-- Witness for the amended C5: the stdin source takes precedence. -/
theorem C5_witness :
    mainRun envOK { stdin := true } =
      (match envOK.stdinJson with
       | .error e => uncaughtResult e
       | .ok cfg => runAndPrint envOK cfg) :=
  (C5_amended_config_precedence envOK { stdin := true }).1 rfl

/-- C6: with the config read (here: from stdin), a successful `execute`
prints its result object as JSON on stdout and exits with status 0; a
raised exception prints `{'error': msg}` on stderr, prints nothing on
stdout, and exits with status 1.  All three config sources funnel through
the same `try: ... except` block of lines 273-278. -/
theorem C6_result_to_stdout_error_to_stderr (env : Env) (args : Args)
    (cfg : JVal) (hstdin : args.stdin = true)
    (hjson : env.stdinJson = .ok cfg) :
    (∀ r, execute cfg env.lib = .ok r → mainRun env args =
      { stdoutJson := some (.jobj r), stderrJson := none, exitCode := 0,
        printedHelp := false, uncaughtMsg := none }) ∧
      ∀ e, execute cfg env.lib = .error e → mainRun env args =
        { stdoutJson := none, stderrJson := some (.jobj [("error", .jstr e)]),
          exitCode := 1, printedHelp := false, uncaughtMsg := none } := by
  constructor
  · intro r hr
    unfold mainRun
    simp only [hstdin, if_true, hjson]
    unfold runAndPrint
    rw [hr]
  · intro e he
    unfold mainRun
    simp only [hstdin, if_true, hjson]
    unfold runAndPrint
    rw [he]

/-- Witness for C6: a failing `execute` (config without `url`) writes the
error object to stderr and exits 1. -/
theorem C6_witness :
    mainRun { envOK with stdinJson := .ok (.jobj []) } { stdin := true } =
      { stdoutJson := none,
        stderrJson := some (.jobj [("error", .jstr "KeyError: url")]),
        exitCode := 1, printedHelp := false, uncaughtMsg := none } :=
  (C6_result_to_stdout_error_to_stderr { envOK with stdinJson := .ok (.jobj []) }
    { stdin := true } (.jobj []) rfl rfl).2 "KeyError: url" rfl

end ScraplingExecutor
